import Mathlib

/-!
Verification development for the BARF binary-analysis framework
(`barf/core/reil/reil.py` and `barf/core/smt/smttranslator.py`).

The REIL data model and the SMT translator are embedded as executable
Lean definitions, and the specification claims about them are settled as
theorems below.

Modelling conventions:
* Python `None` operand sizes are modelled as `0`; both are falsy under
  Python truthiness (`assert oprnd.size`), and `ReilEmptyOperand` is the
  only operand carrying a `None` size.
* The SMT backend (`smtlibv2.py`, not part of the analysed sources) is
  modelled from the spec's backend interface: terms are a deep syntax
  (`SmtExpr`, `SmtCond`, `ArrExpr`) with the usual `QF_ABV` evaluation
  semantics; bit-vector `>=` is the solver default, i.e. unsigned
  (`bvuge`), as stated in the spec's design notes; `assert` appends to
  the solver context, modelled as the `solverAssertions` field.
* `VariableNamer` (`barf/utils/utils.py`, not part of the analysed
  sources) is modelled from the spec: a per-name counter starting at 0,
  `get_current` returns `name_counter`, `get_next` increments first.
-/

namespace Barf

/-- REIL operand (reil.py:333-424): a tagged variant of Immediate,
Register and Empty.  `ReilEmptyOperand` is a `ReilRegisterOperand`
subclass with name `"EMPTY"` and `None` size (modelled as size 0). -/
inductive ReilOperand where
  | imm : Int → Nat → ReilOperand
  | reg : String → Nat → ReilOperand
  | empty : ReilOperand

/-- Operand size attribute; Python `None` (the Empty operand) is 0. -/
def ReilOperand.size : ReilOperand → Nat
  | .imm _ s => s
  | .reg _ s => s
  | .empty => 0

/-- Operand name attribute (registers only; Empty is named "EMPTY"). -/
def ReilOperand.name : ReilOperand → String
  | .imm _ _ => ""
  | .reg n _ => n
  | .empty => "EMPTY"

/-- Stored immediate value attribute of an immediate operand. -/
def ReilOperand.immediate : ReilOperand → Int
  | .imm v _ => v
  | .reg _ _ => 0
  | .empty => 0

/-- ReilImmediateOperand.__init__ (reil.py:339-349): the stored value is
the argument itself when non-negative, and `2^size - (-v)` when
negative (with `2^32` when the size is None/0). -/
def mk_immediate (immediate : Int) (size : Nat) : Int :=
  if size ≠ 0 then
    (if 0 ≤ immediate then immediate else 2 ^ size - (-immediate))
  else
    (if 0 ≤ immediate then immediate else 2 ^ 32 - (-immediate))

/-- Convenience constructor: `ReilImmediateOperand(v, s)`. -/
def reilImm (v : Int) (s : Nat) : ReilOperand :=
  .imm (mk_immediate v s) s

/-- REIL mnemonics (reil.py:32-65), a closed enumeration. -/
inductive ReilMnemonic where
  | ADD | SUB | MUL | DIV | MOD | BSH
  | AND | OR | XOR
  | LDM | STM | STR
  | BISZ | JCC
  | UNKN | UNDEF | NOP | RET
  deriving DecidableEq

/-- REIL instruction (reil.py:176-248): a mnemonic and an operand list
(the `operands` setter enforces exactly three entries). -/
structure ReilInstruction where
  mnemonic : ReilMnemonic
  operands : List ReilOperand

mutual
/-- SMT bit-vector term syntax, modelled from the spec's backend
interface (smtlibv2 is not part of the analysed sources): variables,
literals, arithmetic/bitwise/shift operators, extraction,
zero-extension, bit-vector if-then-else and array reads. -/
inductive SmtExpr where
  | var : Nat → String → SmtExpr
  | lit : Nat → Int → SmtExpr
  | bvadd : SmtExpr → SmtExpr → SmtExpr
  | bvsub : SmtExpr → SmtExpr → SmtExpr
  | bvmul : SmtExpr → SmtExpr → SmtExpr
  | bvudiv : SmtExpr → SmtExpr → SmtExpr
  | bvurem : SmtExpr → SmtExpr → SmtExpr
  | bvand : SmtExpr → SmtExpr → SmtExpr
  | bvor : SmtExpr → SmtExpr → SmtExpr
  | bvxor : SmtExpr → SmtExpr → SmtExpr
  | bvshl : SmtExpr → SmtExpr → SmtExpr
  | bvlshr : SmtExpr → SmtExpr → SmtExpr
  | bvneg : SmtExpr → SmtExpr
  | extract : SmtExpr → Nat → Nat → SmtExpr
  | zextend : SmtExpr → Nat → SmtExpr
  | itebv : Nat → SmtCond → SmtExpr → SmtExpr → SmtExpr
  | select : ArrExpr → SmtExpr → SmtExpr

/-- SMT boolean term over bit-vectors: equality and the backend-default
unsigned `>=` comparison. -/
inductive SmtCond where
  | eq : SmtExpr → SmtExpr → SmtCond
  | uge : SmtExpr → SmtExpr → SmtCond

/-- SMT array term: a named `BitVec(addr) -> BitVec(8)` array variable
or a `store` chain on one. -/
inductive ArrExpr where
  | arrvar : Nat → String → ArrExpr
  | store : ArrExpr → SmtExpr → SmtExpr → ArrExpr
end

/-- Declared bit-width of a term (the `.size` attribute of smtlibv2
terms; binary operators take their left operand's width, array reads
produce bytes). -/
def SmtExpr.size : SmtExpr → Nat
  | .var s _ => s
  | .lit s _ => s
  | .bvadd a _ => a.size
  | .bvsub a _ => a.size
  | .bvmul a _ => a.size
  | .bvudiv a _ => a.size
  | .bvurem a _ => a.size
  | .bvand a _ => a.size
  | .bvor a _ => a.size
  | .bvxor a _ => a.size
  | .bvshl a _ => a.size
  | .bvlshr a _ => a.size
  | .bvneg a => a.size
  | .extract _ _ s => s
  | .zextend _ s => s
  | .itebv s _ _ _ => s
  | .select _ _ => 8

mutual
/-- Evaluation of a bit-vector term under an assignment of variable
names to values (`env`) and array names to byte maps (`menv`).  Every
case normalises to the term's width, so values are always below
`2 ^ size`. -/
def evalE (env : String → Nat) (menv : String → Nat → Nat) : SmtExpr → Nat
  | .var s n => env n % 2 ^ s
  | .lit s v => (Int.emod v (2 ^ s)).toNat % 2 ^ s
  | .bvadd a b => (evalE env menv a + evalE env menv b) % 2 ^ a.size
  | .bvsub a b => (2 ^ a.size + evalE env menv a - evalE env menv b) % 2 ^ a.size
  | .bvmul a b => (evalE env menv a * evalE env menv b) % 2 ^ a.size
  | .bvudiv a b =>
      (if evalE env menv b = 0 then 2 ^ a.size - 1
       else evalE env menv a / evalE env menv b) % 2 ^ a.size
  | .bvurem a b =>
      (if evalE env menv b = 0 then evalE env menv a
       else evalE env menv a % evalE env menv b) % 2 ^ a.size
  | .bvand a b => (Nat.land (evalE env menv a) (evalE env menv b)) % 2 ^ a.size
  | .bvor a b => (Nat.lor (evalE env menv a) (evalE env menv b)) % 2 ^ a.size
  | .bvxor a b => (Nat.xor (evalE env menv a) (evalE env menv b)) % 2 ^ a.size
  | .bvshl a b => (evalE env menv a * 2 ^ evalE env menv b) % 2 ^ a.size
  | .bvlshr a b => (evalE env menv a / 2 ^ evalE env menv b) % 2 ^ a.size
  | .bvneg a => (2 ^ a.size - evalE env menv a) % 2 ^ a.size
  | .extract e off s => (evalE env menv e / 2 ^ off) % 2 ^ s
  | .zextend e s => evalE env menv e % 2 ^ s
  | .itebv s c t f =>
      (if evalC env menv c then evalE env menv t else evalE env menv f) % 2 ^ s
  | .select a i => evalA env menv a (evalE env menv i) % 2 ^ 8

/-- Evaluation of a boolean term; `uge` is the unsigned comparison. -/
def evalC (env : String → Nat) (menv : String → Nat → Nat) : SmtCond → Bool
  | .eq a b => decide (evalE env menv a = evalE env menv b)
  | .uge a b => decide (evalE env menv b ≤ evalE env menv a)

/-- Evaluation of an array term as an address-to-byte map. -/
def evalA (env : String → Nat) (menv : String → Nat → Nat) : ArrExpr → Nat → Nat
  | .arrvar _ n, addr => menv n addr % 2 ^ 8
  | .store a i v, addr =>
      if addr = evalE env menv i then evalE env menv v % 2 ^ 8
      else evalA env menv a addr
end

/-- An assertion sent to (or returned by) the translator: a boolean
bit-vector term, or an equality between array terms (produced by STM). -/
inductive SmtAssert where
  | cond : SmtCond → SmtAssert
  | arrEq : ArrExpr → ArrExpr → SmtAssert

/-- Truth of an assertion in a model. -/
def SmtAssert.holds (env : String → Nat) (menv : String → Nat → Nat) : SmtAssert → Prop
  | .cond c => evalC env menv c = true
  | .arrEq a b => ∀ addr, evalA env menv a addr = evalA env menv b addr

/-- A model satisfies a list of assertions when each one holds. -/
def satisfies (env : String → Nat) (menv : String → Nat → Nat)
    (l : List SmtAssert) : Prop :=
  ∀ a ∈ l, a.holds env menv

/-- Terms always evaluate below `2 ^ size`. -/
theorem evalE_lt (env : String → Nat) (menv : String → Nat → Nat) (e : SmtExpr) :
    evalE env menv e < 2 ^ e.size := by
  cases e <;>
    simp only [evalE, SmtExpr.size] <;>
    exact Nat.mod_lt _ (Nat.pos_pow_of_pos _ (by norm_num))

/-- Association-list lookup by key (first match), modelling Python dict
`get` / `__getitem__`. -/
def alist_get {α : Type} : List (String × α) → String → Option α
  | [], _ => none
  | (k', v) :: rest, k => if k' = k then some v else alist_get rest k

/-- Association-list update of the first matching key (inserting at the
end when absent), modelling Python dict item assignment. -/
def alist_set {α : Type} : List (String × α) → String → α → List (String × α)
  | [], k, v => [(k, v)]
  | (k', v') :: rest, k, v =>
      if k' = k then (k, v) :: rest else (k', v') :: alist_set rest k v

/-- Errors raised by the translator (smttranslator.py): Python `assert`
failures (width checks), a `TypeError` from unpacking a non-3 operand
list, the invalid-operand-type exception, the UNKN unsupported
instruction exception, and dict `KeyError`. -/
inductive TransError where
  | assertionError
  | invalidArity
  | invalidOperandType
  | unsupportedInstruction
  | keyError
  deriving DecidableEq

/-- SmtTranslator state (smttranslator.py:41-93): address size, the
current and initial memory array handles, the memory version counter,
the per-name SSA version counters, the architecture register sizes, the
register access map, and the (spec-modelled) solver assertion context. -/
structure SmtTranslator where
  addressSize : Nat
  mem : ArrExpr
  memInstance : Nat
  memInit : ArrExpr
  varNameMappers : List (String × Nat)
  archRegsSize : List (String × Nat)
  regAccessMapper : List (String × String × Nat × Nat)
  solverAssertions : List SmtAssert

/-- SmtTranslator.__init__ (smttranslator.py:41-93): fresh state with a
version-0 memory array, an initial-memory snapshot over the same name,
and empty mappers. -/
def SmtTranslator.mk_init (addressSize : Nat) : SmtTranslator :=
  { addressSize := addressSize
    mem := .arrvar addressSize "MEM_0"
    memInstance := 0
    memInit := .arrvar addressSize "MEM_0"
    varNameMappers := []
    archRegsSize := []
    regAccessMapper := []
    solverAssertions := [] }

/-- SmtTranslator.reset (smttranslator.py:132-143): clears the solver,
rebuilds the version-0 memory array and the initial snapshot, and
clears the name mappers (the architecture maps are kept). -/
def SmtTranslator.reset (st : SmtTranslator) : SmtTranslator :=
  { st with
    mem := .arrvar st.addressSize "MEM_0"
    memInstance := 0
    memInit := .arrvar st.addressSize "MEM_0"
    varNameMappers := []
    solverAssertions := [] }

/-- Version-`counter` SSA name of a symbol.  Modelled from the spec:
`VariableNamer` (barf/utils/utils.py is not among the analysed sources)
issues successive versions `name_0`, `name_1`, ... -/
def var_version_string (name : String) (counter : Nat) : String :=
  name ++ "_" ++ toString counter

/-- SmtTranslator._register_name (smttranslator.py:147-151): create a
`VariableNamer` (counter 0) for the name when absent. -/
def register_name (st : SmtTranslator) (name : String) : SmtTranslator :=
  match alist_get st.varNameMappers name with
  | some _ => st
  | none => { st with varNameMappers := alist_set st.varNameMappers name 0 }

/-- SmtTranslator._get_var_name (smttranslator.py:158-169): current or
fresh SSA name of a symbol.  Modelled from the spec for the missing
`VariableNamer`: `get_current` returns `name_counter`, `get_next`
increments the counter first. -/
def get_var_name (st : SmtTranslator) (name : String) (fresh : Bool) :
    String × SmtTranslator :=
  let st1 := register_name st name
  let c := (alist_get st1.varNameMappers name).getD 0
  if fresh then
    (var_version_string name (c + 1),
     { st1 with varNameMappers := alist_set st1.varNameMappers name (c + 1) })
  else
    (var_version_string name c, st1)

/-- SmtTranslator.get_init_name (smttranslator.py:108-113). -/
def get_init_name (st : SmtTranslator) (name : String) : String × SmtTranslator :=
  (var_version_string name 0, register_name st name)

/-- SmtTranslator.get_curr_name (smttranslator.py:115-120). -/
def get_curr_name (st : SmtTranslator) (name : String) : String × SmtTranslator :=
  let st1 := register_name st name
  (var_version_string name ((alist_get st1.varNameMappers name).getD 0), st1)

/-- Current SSA name of a symbol as a pure reading of the state (used
to phrase theorems about pre- and post-states). -/
def current_name_of (st : SmtTranslator) (name : String) : String :=
  var_version_string name ((alist_get st.varNameMappers name).getD 0)

/-- SmtTranslator.translate_immediate_oprnd (smttranslator.py:261-269):
a bit-vector literal of the operand's size and stored value (the hex or
binary format string is abstracted into the literal's integer field). -/
def translate_immediate_oprnd (operand : ReilOperand) : SmtExpr :=
  .lit operand.size operand.immediate

/-- SmtTranslator._translate_src_register_oprnd
(smttranslator.py:201-218): an aliased register reads as an EXTRACT of
the current version of its base register; an unmapped register reads as
the current version of its own name. -/
def translate_src_register_oprnd (st : SmtTranslator) (operand : ReilOperand) :
    Except TransError SmtExpr × SmtTranslator :=
  match alist_get st.regAccessMapper operand.name with
  | some (varBaseName, _mask, varShift) =>
    let p := get_var_name st varBaseName false
    match alist_get p.2.archRegsSize varBaseName with
    | some varSize =>
        (.ok (.extract (.var varSize p.1) varShift operand.size), p.2)
    | none => (.error .keyError, p.2)
  | none =>
    let p := get_var_name st operand.name false
    (.ok (.var operand.size p.1), p.2)

/-- SmtTranslator._translate_src_oprnd (smttranslator.py:171-186).
`ReilEmptyOperand` is a `ReilRegisterOperand` subclass, so the Empty
operand takes the register branch; only a non-register non-immediate
object would raise, which the closed operand type cannot represent. -/
def translate_src_oprnd (st : SmtTranslator) (operand : ReilOperand) :
    Except TransError SmtExpr × SmtTranslator :=
  match operand with
  | .reg _ _ => translate_src_register_oprnd st operand
  | .empty => translate_src_register_oprnd st operand
  | .imm _ _ => (.ok (translate_immediate_oprnd operand), st)

/-- Byte offsets `0, 8, ..., <= varSize - 8` of a register of width
`varSize` (Python `xrange(0, var_size, 8)`). -/
def byte_offsets (varSize : Nat) : List Nat :=
  (List.range ((varSize + 7) / 8)).map (fun k => 8 * k)

/-- Preservation constraints of a sub-register write
(smttranslator.py:241-252): for each byte offset of the base register
outside `[varShift, varShift + opSize)`, in descending offset order,
the byte of the new base version equals the byte of the old version. -/
def parent_reg_constrs_list (newBV oldBV : SmtExpr)
    (varSize varShift opSize : Nat) : List SmtAssert :=
  ((byte_offsets varSize).reverse.filter
      (fun i => decide (¬ (varShift ≤ i ∧ i < varShift + opSize)))).map
    (fun i => .cond (.eq (.extract newBV i 8) (.extract oldBV i 8)))

/-- SmtTranslator._translate_dst_register_oprnd
(smttranslator.py:220-259): an aliased destination advances the base
register's version and returns an EXTRACT of the fresh base together
with the preservation constraints; an unmapped destination is a fresh
version of its own name with no constraints (`None`). -/
def translate_dst_register_oprnd (st : SmtTranslator) (operand : ReilOperand) :
    Except TransError (SmtExpr × Option (List SmtAssert)) × SmtTranslator :=
  match alist_get st.regAccessMapper operand.name with
  | some (varBaseName, _mask, varShift) =>
    let pOld := get_var_name st varBaseName false
    let pNew := get_var_name pOld.2 varBaseName true
    match alist_get pNew.2.archRegsSize varBaseName with
    | none => (.error .keyError, pNew.2)
    | some varSize =>
      let retValCpy := SmtExpr.var varSize pNew.1
      let oldRetVal := SmtExpr.var varSize pOld.1
      (.ok (.extract retValCpy varShift operand.size,
            some (parent_reg_constrs_list retValCpy oldRetVal varSize varShift operand.size)),
       pNew.2)
  | none =>
    let p := get_var_name st operand.name true
    (.ok (.var operand.size p.1, none), p.2)

/-- SmtTranslator._translate_dst_oprnd (smttranslator.py:188-199): only
register (including Empty, a register subclass) destinations are
translated; an immediate destination raises the invalid-type error. -/
def translate_dst_oprnd (st : SmtTranslator) (operand : ReilOperand) :
    Except TransError (SmtExpr × Option (List SmtAssert)) × SmtTranslator :=
  match operand with
  | .reg _ _ => translate_dst_register_oprnd st operand
  | .empty => translate_dst_register_oprnd st operand
  | .imm _ _ => (.error .invalidOperandType, st)

/-- SmtTranslator.convert_to_bitvec (smttranslator.py:278-296): a
register (including Empty, a register subclass) becomes a variable of
the operand's own size named by the current version of the operand's
own name, without consulting the register access map; an immediate is
translated as in source translation. -/
def convert_to_bitvec (st : SmtTranslator) (operand : ReilOperand) :
    Except TransError SmtExpr × SmtTranslator :=
  match operand with
  | .reg _ _ =>
    let p := get_curr_name st operand.name
    (.ok (.var operand.size p.1), p.2)
  | .empty =>
    let p := get_curr_name st operand.name
    (.ok (.var operand.size p.1), p.2)
  | .imm _ _ => (.ok (translate_immediate_oprnd operand), st)

/-- SmtTranslator._translate_add (smttranslator.py:321-343): width
asserts, source and destination translation (preservation constraints
discarded), then the zero-extended, truncated or plain sum equation. -/
def translate_add (st : SmtTranslator) (o1 o2 o3 : ReilOperand) :
    Except TransError (List SmtAssert) × SmtTranslator :=
  if o1.size = 0 ∨ o2.size = 0 ∨ o3.size = 0 then (.error .assertionError, st)
  else if o1.size ≠ o2.size then (.error .assertionError, st)
  else match translate_src_oprnd st o1 with
  | (.error e, st1) => (.error e, st1)
  | (.ok op1Var, st1) =>
    match translate_src_oprnd st1 o2 with
    | (.error e, st2) => (.error e, st2)
    | (.ok op2Var, st2) =>
      match translate_dst_oprnd st2 o3 with
      | (.error e, st3) => (.error e, st3)
      | (.ok (op3Var, _), st3) =>
        if o3.size > o1.size then
          (.ok [.cond (.eq op3Var (.bvadd (.zextend op1Var o3.size) (.zextend op2Var o3.size)))], st3)
        else if o3.size < o1.size then
          (.ok [.cond (.eq op3Var (.extract (.bvadd op1Var op2Var) 0 o3.size))], st3)
        else
          (.ok [.cond (.eq op3Var (.bvadd op1Var op2Var))], st3)

/-- SmtTranslator._translate_sub (smttranslator.py:345-367). -/
def translate_sub (st : SmtTranslator) (o1 o2 o3 : ReilOperand) :
    Except TransError (List SmtAssert) × SmtTranslator :=
  if o1.size = 0 ∨ o2.size = 0 ∨ o3.size = 0 then (.error .assertionError, st)
  else if o1.size ≠ o2.size then (.error .assertionError, st)
  else match translate_src_oprnd st o1 with
  | (.error e, st1) => (.error e, st1)
  | (.ok op1Var, st1) =>
    match translate_src_oprnd st1 o2 with
    | (.error e, st2) => (.error e, st2)
    | (.ok op2Var, st2) =>
      match translate_dst_oprnd st2 o3 with
      | (.error e, st3) => (.error e, st3)
      | (.ok (op3Var, _), st3) =>
        if o3.size > o1.size then
          (.ok [.cond (.eq op3Var (.bvsub (.zextend op1Var o3.size) (.zextend op2Var o3.size)))], st3)
        else if o3.size < o1.size then
          (.ok [.cond (.eq op3Var (.extract (.bvsub op1Var op2Var) 0 o3.size))], st3)
        else
          (.ok [.cond (.eq op3Var (.bvsub op1Var op2Var))], st3)

/-- SmtTranslator._translate_mul (smttranslator.py:369-391). -/
def translate_mul (st : SmtTranslator) (o1 o2 o3 : ReilOperand) :
    Except TransError (List SmtAssert) × SmtTranslator :=
  if o1.size = 0 ∨ o2.size = 0 ∨ o3.size = 0 then (.error .assertionError, st)
  else if o1.size ≠ o2.size then (.error .assertionError, st)
  else match translate_src_oprnd st o1 with
  | (.error e, st1) => (.error e, st1)
  | (.ok op1Var, st1) =>
    match translate_src_oprnd st1 o2 with
    | (.error e, st2) => (.error e, st2)
    | (.ok op2Var, st2) =>
      match translate_dst_oprnd st2 o3 with
      | (.error e, st3) => (.error e, st3)
      | (.ok (op3Var, _), st3) =>
        if o3.size > o1.size then
          (.ok [.cond (.eq op3Var (.bvmul (.zextend op1Var o3.size) (.zextend op2Var o3.size)))], st3)
        else if o3.size < o1.size then
          (.ok [.cond (.eq op3Var (.extract (.bvmul op1Var op2Var) 0 o3.size))], st3)
        else
          (.ok [.cond (.eq op3Var (.bvmul op1Var op2Var))], st3)

/-- SmtTranslator._translate_div (smttranslator.py:393-404): all three
widths must agree; plain unsigned division equation. -/
def translate_div (st : SmtTranslator) (o1 o2 o3 : ReilOperand) :
    Except TransError (List SmtAssert) × SmtTranslator :=
  if o1.size = 0 ∨ o2.size = 0 ∨ o3.size = 0 then (.error .assertionError, st)
  else if o1.size ≠ o2.size then (.error .assertionError, st)
  else if o2.size ≠ o3.size then (.error .assertionError, st)
  else match translate_src_oprnd st o1 with
  | (.error e, st1) => (.error e, st1)
  | (.ok op1Var, st1) =>
    match translate_src_oprnd st1 o2 with
    | (.error e, st2) => (.error e, st2)
    | (.ok op2Var, st2) =>
      match translate_dst_oprnd st2 o3 with
      | (.error e, st3) => (.error e, st3)
      | (.ok (op3Var, _), st3) =>
        (.ok [.cond (.eq op3Var (.bvudiv op1Var op2Var))], st3)

/-- SmtTranslator._translate_mod (smttranslator.py:406-417). -/
def translate_mod (st : SmtTranslator) (o1 o2 o3 : ReilOperand) :
    Except TransError (List SmtAssert) × SmtTranslator :=
  if o1.size = 0 ∨ o2.size = 0 ∨ o3.size = 0 then (.error .assertionError, st)
  else if o1.size ≠ o2.size then (.error .assertionError, st)
  else if o2.size ≠ o3.size then (.error .assertionError, st)
  else match translate_src_oprnd st o1 with
  | (.error e, st1) => (.error e, st1)
  | (.ok op1Var, st1) =>
    match translate_src_oprnd st1 o2 with
    | (.error e, st2) => (.error e, st2)
    | (.ok op2Var, st2) =>
      match translate_dst_oprnd st2 o3 with
      | (.error e, st3) => (.error e, st3)
      | (.ok (op3Var, _), st3) =>
        (.ok [.cond (.eq op3Var (.bvurem op1Var op2Var))], st3)

/-- SmtTranslator._translate_bsh (smttranslator.py:419-432): one ITE
equation choosing the truncated left shift when `s2 >= 0` (backend
default, i.e. unsigned comparison) and the truncated right shift by
`-s2` otherwise. -/
def translate_bsh (st : SmtTranslator) (o1 o2 o3 : ReilOperand) :
    Except TransError (List SmtAssert) × SmtTranslator :=
  if o1.size = 0 ∨ o2.size = 0 ∨ o3.size = 0 then (.error .assertionError, st)
  else if o1.size ≠ o2.size then (.error .assertionError, st)
  else match translate_src_oprnd st o1 with
  | (.error e, st1) => (.error e, st1)
  | (.ok op1Var, st1) =>
    match translate_src_oprnd st1 o2 with
    | (.error e, st2) => (.error e, st2)
    | (.ok op2Var, st2) =>
      match translate_dst_oprnd st2 o3 with
      | (.error e, st3) => (.error e, st3)
      | (.ok (op3Var, _), st3) =>
        (.ok [.cond (.eq op3Var
          (.itebv o3.size (.uge op2Var (.lit op2Var.size 0))
            (.extract (.bvshl op1Var op2Var) 0 op3Var.size)
            (.extract (.bvlshr op1Var (.bvneg op2Var)) 0 op3Var.size)))], st3)

/-- SmtTranslator._translate_and (smttranslator.py:436-457): note the
widening branch zero-extends the conjunction itself. -/
def translate_and (st : SmtTranslator) (o1 o2 o3 : ReilOperand) :
    Except TransError (List SmtAssert) × SmtTranslator :=
  if o1.size = 0 ∨ o2.size = 0 ∨ o3.size = 0 then (.error .assertionError, st)
  else if o1.size ≠ o2.size then (.error .assertionError, st)
  else match translate_src_oprnd st o1 with
  | (.error e, st1) => (.error e, st1)
  | (.ok op1Var, st1) =>
    match translate_src_oprnd st1 o2 with
    | (.error e, st2) => (.error e, st2)
    | (.ok op2Var, st2) =>
      match translate_dst_oprnd st2 o3 with
      | (.error e, st3) => (.error e, st3)
      | (.ok (op3Var, _), st3) =>
        if o1.size < o3.size then
          (.ok [.cond (.eq op3Var (.zextend (.bvand op1Var op2Var) o3.size))], st3)
        else if o1.size > o3.size then
          (.ok [.cond (.eq op3Var (.extract (.bvand op1Var op2Var) 0 o3.size))], st3)
        else
          (.ok [.cond (.eq op3Var (.bvand op1Var op2Var))], st3)

/-- SmtTranslator._translate_or (smttranslator.py:459-482). -/
def translate_or (st : SmtTranslator) (o1 o2 o3 : ReilOperand) :
    Except TransError (List SmtAssert) × SmtTranslator :=
  if o1.size = 0 ∨ o2.size = 0 ∨ o3.size = 0 then (.error .assertionError, st)
  else if o1.size ≠ o2.size then (.error .assertionError, st)
  else match translate_src_oprnd st o1 with
  | (.error e, st1) => (.error e, st1)
  | (.ok op1Var, st1) =>
    match translate_src_oprnd st1 o2 with
    | (.error e, st2) => (.error e, st2)
    | (.ok op2Var, st2) =>
      match translate_dst_oprnd st2 o3 with
      | (.error e, st3) => (.error e, st3)
      | (.ok (op3Var, _), st3) =>
        if o1.size < o3.size then
          (.ok [.cond (.eq op3Var (.zextend (.bvor op1Var op2Var) o3.size))], st3)
        else if o1.size > o3.size then
          (.ok [.cond (.eq op3Var (.extract (.bvor op1Var op2Var) 0 o3.size))], st3)
        else
          (.ok [.cond (.eq op3Var (.bvor op1Var op2Var))], st3)

/-- SmtTranslator._translate_xor (smttranslator.py:484-505). -/
def translate_xor (st : SmtTranslator) (o1 o2 o3 : ReilOperand) :
    Except TransError (List SmtAssert) × SmtTranslator :=
  if o1.size = 0 ∨ o2.size = 0 ∨ o3.size = 0 then (.error .assertionError, st)
  else if o1.size ≠ o2.size then (.error .assertionError, st)
  else match translate_src_oprnd st o1 with
  | (.error e, st1) => (.error e, st1)
  | (.ok op1Var, st1) =>
    match translate_src_oprnd st1 o2 with
    | (.error e, st2) => (.error e, st2)
    | (.ok op2Var, st2) =>
      match translate_dst_oprnd st2 o3 with
      | (.error e, st3) => (.error e, st3)
      | (.ok (op3Var, _), st3) =>
        if o1.size < o3.size then
          (.ok [.cond (.eq op3Var (.zextend (.bvxor op1Var op2Var) o3.size))], st3)
        else if o1.size > o3.size then
          (.ok [.cond (.eq op3Var (.extract (.bvxor op1Var op2Var) 0 o3.size))], st3)
        else
          (.ok [.cond (.eq op3Var (.bvxor op1Var op2Var))], st3)

/-- SmtTranslator._translate_ldm (smttranslator.py:509-531): one byte
equality per destination byte, in descending bit-offset order, reading
the current memory array. -/
def translate_ldm (st : SmtTranslator) (o1 o2 o3 : ReilOperand) :
    Except TransError (List SmtAssert) × SmtTranslator :=
  if o1.size ≠ st.addressSize then (.error .assertionError, st)
  else if o3.size = 0 then (.error .assertionError, st)
  else match translate_src_oprnd st o1 with
  | (.error e, st1) => (.error e, st1)
  | (.ok op1Var, st1) =>
    match translate_dst_oprnd st1 o3 with
    | (.error e, st2) => (.error e, st2)
    | (.ok (op3Var, _), st2) =>
      (.ok ((byte_offsets o3.size).reverse.map (fun i =>
          SmtAssert.cond (.eq
            (.select st2.mem (.bvadd op1Var (.lit op1Var.size (Int.ofNat (i / 8)))))
            (.extract op3Var i 8)))), st2)

/-- SmtTranslator._translate_stm (smttranslator.py:533-556): store each
source byte into the current memory array, bump the memory version,
rebind the current-memory handle to a fresh named array and assert it
equal to the store chain. -/
def translate_stm (st : SmtTranslator) (o1 o2 o3 : ReilOperand) :
    Except TransError (List SmtAssert) × SmtTranslator :=
  if o1.size = 0 ∨ o3.size = 0 then (.error .assertionError, st)
  else if o3.size ≠ st.addressSize then (.error .assertionError, st)
  else match translate_src_oprnd st o1 with
  | (.error e, st1) => (.error e, st1)
  | (.ok op1Var, st1) =>
    match translate_src_oprnd st1 o3 with
    | (.error e, st2) => (.error e, st2)
    | (.ok op3Var, st2) =>
      let memOld := (byte_offsets o1.size).foldl
        (fun m i => ArrExpr.store m
          (.bvadd op3Var (.lit op3Var.size (Int.ofNat (i / 8))))
          (.extract op1Var i 8))
        st2.mem
      let memNew := ArrExpr.arrvar st.addressSize
        ("MEM_" ++ toString (st2.memInstance + 1))
      (.ok [.arrEq memNew memOld],
       { st2 with mem := memNew, memInstance := st2.memInstance + 1 })

/-- SmtTranslator._translate_str (smttranslator.py:558-593): equality
(with truncation on either side when the widths differ), the
zero-padding constraint in the widening case, then the preservation
constraints when present and non-empty. -/
def translate_str (st : SmtTranslator) (o1 o2 o3 : ReilOperand) :
    Except TransError (List SmtAssert) × SmtTranslator :=
  if o1.size = 0 ∨ o3.size = 0 then (.error .assertionError, st)
  else match translate_src_oprnd st o1 with
  | (.error e, st1) => (.error e, st1)
  | (.ok op1Var, st1) =>
    match translate_dst_oprnd st1 o3 with
    | (.error e, st2) => (.error e, st2)
    | (.ok (op3Var, parentRegConstrs), st2) =>
      let exprConstrs : SmtAssert × List SmtAssert :=
        if o1.size = o3.size then
          (.cond (.eq op1Var op3Var), [])
        else if o1.size < o3.size then
          (.cond (.eq op1Var (.extract op3Var 0 op1Var.size)),
           [.cond (.eq (.lit (op3Var.size - op1Var.size) 0)
             (.extract op3Var op1Var.size (op3Var.size - op1Var.size)))])
        else
          (.cond (.eq (.extract op1Var 0 op3Var.size) op3Var), [])
      let rv := [exprConstrs.1]
      let rv := if exprConstrs.2.isEmpty then rv else rv ++ exprConstrs.2
      let rv := match parentRegConstrs with
        | some cs => if cs.isEmpty then rv else rv ++ cs
        | none => rv
      (.ok rv, st2)

/-- SmtTranslator._translate_bisz (smttranslator.py:597-607). -/
def translate_bisz (st : SmtTranslator) (o1 o2 o3 : ReilOperand) :
    Except TransError (List SmtAssert) × SmtTranslator :=
  if o1.size = 0 ∨ o3.size = 0 then (.error .assertionError, st)
  else match translate_src_oprnd st o1 with
  | (.error e, st1) => (.error e, st1)
  | (.ok op1Var, st1) =>
    match translate_dst_oprnd st1 o3 with
    | (.error e, st2) => (.error e, st2)
    | (.ok (op3Var, _), st2) =>
      (.ok [.cond (.eq op3Var
        (.itebv o3.size (.eq op1Var (.lit op1Var.size 0))
          (.lit o3.size 1) (.lit o3.size 0)))], st2)

/-- SmtTranslator._translate_jcc (smttranslator.py:609-614): no
assertions. -/
def translate_jcc (st : SmtTranslator) (o1 o2 o3 : ReilOperand) :
    Except TransError (List SmtAssert) × SmtTranslator :=
  (.ok [], st)

/-- SmtTranslator._translate_undef (smttranslator.py:618-625): no
assertions. -/
def translate_undef (st : SmtTranslator) (o1 o2 o3 : ReilOperand) :
    Except TransError (List SmtAssert) × SmtTranslator :=
  (.ok [], st)

/-- SmtTranslator._translate_unkn (smttranslator.py:627-630): raises
the "Unsupported instruction" exception. -/
def translate_unkn (st : SmtTranslator) (o1 o2 o3 : ReilOperand) :
    Except TransError (List SmtAssert) × SmtTranslator :=
  (.error .unsupportedInstruction, st)

/-- SmtTranslator._translate_nop (smttranslator.py:632-635): no
assertions. -/
def translate_nop (st : SmtTranslator) (o1 o2 o3 : ReilOperand) :
    Except TransError (List SmtAssert) × SmtTranslator :=
  (.ok [], st)

/-- SmtTranslator._translate_ret (smttranslator.py:639-644): no
assertions. -/
def translate_ret (st : SmtTranslator) (o1 o2 o3 : ReilOperand) :
    Except TransError (List SmtAssert) × SmtTranslator :=
  (.ok [], st)

/-- SmtTranslator.translate (smttranslator.py:95-106): dispatch on the
mnemonic and call the per-instruction translator with the unpacked
operands; unpacking a list that does not have exactly three entries
raises before the translator body runs. -/
def translate (st : SmtTranslator) (instr : ReilInstruction) :
    Except TransError (List SmtAssert) × SmtTranslator :=
  match instr.operands with
  | [o1, o2, o3] =>
    match instr.mnemonic with
    | .ADD => translate_add st o1 o2 o3
    | .SUB => translate_sub st o1 o2 o3
    | .MUL => translate_mul st o1 o2 o3
    | .DIV => translate_div st o1 o2 o3
    | .MOD => translate_mod st o1 o2 o3
    | .BSH => translate_bsh st o1 o2 o3
    | .AND => translate_and st o1 o2 o3
    | .OR => translate_or st o1 o2 o3
    | .XOR => translate_xor st o1 o2 o3
    | .LDM => translate_ldm st o1 o2 o3
    | .STM => translate_stm st o1 o2 o3
    | .STR => translate_str st o1 o2 o3
    | .BISZ => translate_bisz st o1 o2 o3
    | .JCC => translate_jcc st o1 o2 o3
    | .UNKN => translate_unkn st o1 o2 o3
    | .UNDEF => translate_undef st o1 o2 o3
    | .NOP => translate_nop st o1 o2 o3
    | .RET => translate_ret st o1 o2 o3
  | _ => (.error .invalidArity, st)

/-! Helper lemmas about the operand translators. -/

/-- Source operand translation can only fail with a `KeyError` (missing
base register size). -/
theorem translate_src_register_oprnd_error {st : SmtTranslator} {o : ReilOperand}
    {e : TransError} {st' : SmtTranslator}
    (h : translate_src_register_oprnd st o = (.error e, st')) : e = .keyError := by
  unfold translate_src_register_oprnd at h
  split at h
  · simp only [] at h
    split at h
    · exact absurd h (by simp)
    · simp_all
  · exact absurd h (by simp)

/-- Source operand translation can only fail with a `KeyError`. -/
theorem translate_src_oprnd_error {st : SmtTranslator} {o : ReilOperand}
    {e : TransError} {st' : SmtTranslator}
    (h : translate_src_oprnd st o = (.error e, st')) : e = .keyError := by
  unfold translate_src_oprnd at h
  split at h
  · exact translate_src_register_oprnd_error h
  · exact translate_src_register_oprnd_error h
  · exact absurd h (by simp)

/-- Aliased destination translation can only fail with a `KeyError`. -/
theorem translate_dst_register_oprnd_error {st : SmtTranslator} {o : ReilOperand}
    {e : TransError} {st' : SmtTranslator}
    (h : translate_dst_register_oprnd st o = (.error e, st')) : e = .keyError := by
  unfold translate_dst_register_oprnd at h
  split at h
  · simp only [] at h
    split at h
    · simp_all
    · exact absurd h (by simp)
  · exact absurd h (by simp)

/-- Destination operand translation fails only with `KeyError` or the
invalid-operand-type error (immediate destination). -/
theorem translate_dst_oprnd_error {st : SmtTranslator} {o : ReilOperand}
    {e : TransError} {st' : SmtTranslator}
    (h : translate_dst_oprnd st o = (.error e, st')) :
    e = .keyError ∨ e = .invalidOperandType := by
  unfold translate_dst_oprnd at h
  split at h
  · exact .inl (translate_dst_register_oprnd_error h)
  · exact .inl (translate_dst_register_oprnd_error h)
  · simp_all

/-- A successfully translated register source has the operand's size. -/
theorem translate_src_register_oprnd_size {st : SmtTranslator} {o : ReilOperand}
    {ex : SmtExpr} {st' : SmtTranslator}
    (h : translate_src_register_oprnd st o = (.ok ex, st')) : ex.size = o.size := by
  unfold translate_src_register_oprnd at h
  split at h
  · simp only [] at h
    split at h
    · simp only [Prod.mk.injEq, Except.ok.injEq] at h
      rw [← h.1]
      rfl
    · exact absurd h (by simp)
  · simp only [Prod.mk.injEq, Except.ok.injEq] at h
    rw [← h.1]
    rfl

/-- A successfully translated source operand has the operand's size. -/
theorem translate_src_oprnd_size {st : SmtTranslator} {o : ReilOperand}
    {ex : SmtExpr} {st' : SmtTranslator}
    (h : translate_src_oprnd st o = (.ok ex, st')) : ex.size = o.size := by
  unfold translate_src_oprnd at h
  split at h
  · exact translate_src_register_oprnd_size h
  · exact translate_src_register_oprnd_size h
  · simp only [Prod.mk.injEq, Except.ok.injEq] at h
    rw [← h.1]
    rfl

/-- A successfully translated aliased destination has the operand's
size. -/
theorem translate_dst_register_oprnd_size {st : SmtTranslator} {o : ReilOperand}
    {ex : SmtExpr} {pc : Option (List SmtAssert)} {st' : SmtTranslator}
    (h : translate_dst_register_oprnd st o = (.ok (ex, pc), st')) : ex.size = o.size := by
  unfold translate_dst_register_oprnd at h
  split at h
  · simp only [] at h
    split at h
    · exact absurd h (by simp)
    · simp only [Prod.mk.injEq, Except.ok.injEq] at h
      rw [← h.1.1]
      rfl
  · simp only [Prod.mk.injEq, Except.ok.injEq] at h
    rw [← h.1.1]
    rfl

/-- A successfully translated destination operand has the operand's
size. -/
theorem translate_dst_oprnd_size {st : SmtTranslator} {o : ReilOperand}
    {ex : SmtExpr} {pc : Option (List SmtAssert)} {st' : SmtTranslator}
    (h : translate_dst_oprnd st o = (.ok (ex, pc), st')) : ex.size = o.size := by
  unfold translate_dst_oprnd at h
  split at h
  · exact translate_dst_register_oprnd_size h
  · exact translate_dst_register_oprnd_size h
  · exact absurd h (by simp)

/-! State-frame lemmas: which fields each operation can change. -/

/-- State relation: the two states agree on every field except possibly
the SSA name counters. -/
def only_names_changed (s t : SmtTranslator) : Prop :=
  t.addressSize = s.addressSize ∧ t.mem = s.mem ∧ t.memInstance = s.memInstance ∧
  t.memInit = s.memInit ∧ t.archRegsSize = s.archRegsSize ∧
  t.regAccessMapper = s.regAccessMapper ∧ t.solverAssertions = s.solverAssertions

theorem onc_refl (s : SmtTranslator) : only_names_changed s s := by
  simp [only_names_changed]

theorem onc_trans {s t u : SmtTranslator} (h1 : only_names_changed s t)
    (h2 : only_names_changed t u) : only_names_changed s u := by
  obtain ⟨a1, b1, c1, d1, e1, f1, g1⟩ := h1
  obtain ⟨a2, b2, c2, d2, e2, f2, g2⟩ := h2
  exact ⟨a2.trans a1, b2.trans b1, c2.trans c1, d2.trans d1,
         e2.trans e1, f2.trans f1, g2.trans g1⟩

theorem onc_register_name (st : SmtTranslator) (name : String) :
    only_names_changed st (register_name st name) := by
  unfold register_name
  split <;> simp [only_names_changed]

theorem onc_get_var_name (st : SmtTranslator) (name : String) (fresh : Bool) :
    only_names_changed st (get_var_name st name fresh).2 := by
  unfold get_var_name
  split
  · exact onc_trans (onc_register_name st name) (by simp [only_names_changed])
  · exact onc_register_name st name

theorem onc_get_curr_name (st : SmtTranslator) (name : String) :
    only_names_changed st (get_curr_name st name).2 :=
  onc_register_name st name

theorem onc_translate_src_register_oprnd (st : SmtTranslator) (o : ReilOperand) :
    only_names_changed st (translate_src_register_oprnd st o).2 := by
  unfold translate_src_register_oprnd
  split
  · simp only []
    split <;> exact onc_get_var_name st _ false
  · exact onc_get_var_name st _ false

theorem onc_translate_src_oprnd (st : SmtTranslator) (o : ReilOperand) :
    only_names_changed st (translate_src_oprnd st o).2 := by
  unfold translate_src_oprnd
  split
  · exact onc_translate_src_register_oprnd st _
  · exact onc_translate_src_register_oprnd st _
  · exact onc_refl st

theorem onc_translate_dst_register_oprnd (st : SmtTranslator) (o : ReilOperand) :
    only_names_changed st (translate_dst_register_oprnd st o).2 := by
  unfold translate_dst_register_oprnd
  split
  · simp only []
    split <;>
      exact onc_trans (onc_get_var_name st _ false) (onc_get_var_name _ _ true)
  · exact onc_get_var_name st _ true

theorem onc_translate_dst_oprnd (st : SmtTranslator) (o : ReilOperand) :
    only_names_changed st (translate_dst_oprnd st o).2 := by
  unfold translate_dst_oprnd
  split
  · exact onc_translate_dst_register_oprnd st _
  · exact onc_translate_dst_register_oprnd st _
  · exact onc_refl st

/-! Per-instruction frame lemmas: every translator other than STM can
change only the SSA name counters of the state, and no translator other
than UNKN can raise the unsupported-instruction error. -/

theorem translate_add_props (st : SmtTranslator) (o1 o2 o3 : ReilOperand) :
    only_names_changed st (translate_add st o1 o2 o3).2 ∧
    (translate_add st o1 o2 o3).1 ≠ .error .unsupportedInstruction := by
  unfold translate_add
  split
  · exact ⟨onc_refl st, by simp⟩
  split
  · exact ⟨onc_refl st, by simp⟩
  split
  next e1 st1 heq1 =>
    have h1 := onc_translate_src_oprnd st o1
    rw [heq1] at h1
    exact ⟨h1, by simp [translate_src_oprnd_error heq1]⟩
  next op1Var st1 heq1 =>
    have h1 := onc_translate_src_oprnd st o1
    rw [heq1] at h1
    split
    next e2 st2 heq2 =>
      have h2 := onc_translate_src_oprnd st1 o2
      rw [heq2] at h2
      exact ⟨onc_trans h1 h2, by simp [translate_src_oprnd_error heq2]⟩
    next op2Var st2 heq2 =>
      have h2 := onc_translate_src_oprnd st1 o2
      rw [heq2] at h2
      split
      next e3 st3 heq3 =>
        have h3 := onc_translate_dst_oprnd st2 o3
        rw [heq3] at h3
        refine ⟨onc_trans h1 (onc_trans h2 h3), ?_⟩
        rcases translate_dst_oprnd_error heq3 with hh | hh <;> simp [hh]
      next op3Var pc st3 heq3 =>
        have h3 := onc_translate_dst_oprnd st2 o3
        rw [heq3] at h3
        constructor
        · repeat' split
          all_goals exact onc_trans h1 (onc_trans h2 h3)
        · repeat' split
          all_goals simp

theorem translate_sub_props (st : SmtTranslator) (o1 o2 o3 : ReilOperand) :
    only_names_changed st (translate_sub st o1 o2 o3).2 ∧
    (translate_sub st o1 o2 o3).1 ≠ .error .unsupportedInstruction := by
  unfold translate_sub
  split
  · exact ⟨onc_refl st, by simp⟩
  split
  · exact ⟨onc_refl st, by simp⟩
  split
  next e1 st1 heq1 =>
    have h1 := onc_translate_src_oprnd st o1
    rw [heq1] at h1
    exact ⟨h1, by simp [translate_src_oprnd_error heq1]⟩
  next op1Var st1 heq1 =>
    have h1 := onc_translate_src_oprnd st o1
    rw [heq1] at h1
    split
    next e2 st2 heq2 =>
      have h2 := onc_translate_src_oprnd st1 o2
      rw [heq2] at h2
      exact ⟨onc_trans h1 h2, by simp [translate_src_oprnd_error heq2]⟩
    next op2Var st2 heq2 =>
      have h2 := onc_translate_src_oprnd st1 o2
      rw [heq2] at h2
      split
      next e3 st3 heq3 =>
        have h3 := onc_translate_dst_oprnd st2 o3
        rw [heq3] at h3
        refine ⟨onc_trans h1 (onc_trans h2 h3), ?_⟩
        rcases translate_dst_oprnd_error heq3 with hh | hh <;> simp [hh]
      next op3Var pc st3 heq3 =>
        have h3 := onc_translate_dst_oprnd st2 o3
        rw [heq3] at h3
        constructor
        · repeat' split
          all_goals exact onc_trans h1 (onc_trans h2 h3)
        · repeat' split
          all_goals simp

theorem translate_mul_props (st : SmtTranslator) (o1 o2 o3 : ReilOperand) :
    only_names_changed st (translate_mul st o1 o2 o3).2 ∧
    (translate_mul st o1 o2 o3).1 ≠ .error .unsupportedInstruction := by
  unfold translate_mul
  split
  · exact ⟨onc_refl st, by simp⟩
  split
  · exact ⟨onc_refl st, by simp⟩
  split
  next e1 st1 heq1 =>
    have h1 := onc_translate_src_oprnd st o1
    rw [heq1] at h1
    exact ⟨h1, by simp [translate_src_oprnd_error heq1]⟩
  next op1Var st1 heq1 =>
    have h1 := onc_translate_src_oprnd st o1
    rw [heq1] at h1
    split
    next e2 st2 heq2 =>
      have h2 := onc_translate_src_oprnd st1 o2
      rw [heq2] at h2
      exact ⟨onc_trans h1 h2, by simp [translate_src_oprnd_error heq2]⟩
    next op2Var st2 heq2 =>
      have h2 := onc_translate_src_oprnd st1 o2
      rw [heq2] at h2
      split
      next e3 st3 heq3 =>
        have h3 := onc_translate_dst_oprnd st2 o3
        rw [heq3] at h3
        refine ⟨onc_trans h1 (onc_trans h2 h3), ?_⟩
        rcases translate_dst_oprnd_error heq3 with hh | hh <;> simp [hh]
      next op3Var pc st3 heq3 =>
        have h3 := onc_translate_dst_oprnd st2 o3
        rw [heq3] at h3
        constructor
        · repeat' split
          all_goals exact onc_trans h1 (onc_trans h2 h3)
        · repeat' split
          all_goals simp

theorem translate_div_props (st : SmtTranslator) (o1 o2 o3 : ReilOperand) :
    only_names_changed st (translate_div st o1 o2 o3).2 ∧
    (translate_div st o1 o2 o3).1 ≠ .error .unsupportedInstruction := by
  unfold translate_div
  split
  · exact ⟨onc_refl st, by simp⟩
  split
  · exact ⟨onc_refl st, by simp⟩
  split
  · exact ⟨onc_refl st, by simp⟩
  split
  next e1 st1 heq1 =>
    have h1 := onc_translate_src_oprnd st o1
    rw [heq1] at h1
    exact ⟨h1, by simp [translate_src_oprnd_error heq1]⟩
  next op1Var st1 heq1 =>
    have h1 := onc_translate_src_oprnd st o1
    rw [heq1] at h1
    split
    next e2 st2 heq2 =>
      have h2 := onc_translate_src_oprnd st1 o2
      rw [heq2] at h2
      exact ⟨onc_trans h1 h2, by simp [translate_src_oprnd_error heq2]⟩
    next op2Var st2 heq2 =>
      have h2 := onc_translate_src_oprnd st1 o2
      rw [heq2] at h2
      split
      next e3 st3 heq3 =>
        have h3 := onc_translate_dst_oprnd st2 o3
        rw [heq3] at h3
        refine ⟨onc_trans h1 (onc_trans h2 h3), ?_⟩
        rcases translate_dst_oprnd_error heq3 with hh | hh <;> simp [hh]
      next op3Var pc st3 heq3 =>
        have h3 := onc_translate_dst_oprnd st2 o3
        rw [heq3] at h3
        constructor
        · repeat' split
          all_goals exact onc_trans h1 (onc_trans h2 h3)
        · repeat' split
          all_goals simp

theorem translate_mod_props (st : SmtTranslator) (o1 o2 o3 : ReilOperand) :
    only_names_changed st (translate_mod st o1 o2 o3).2 ∧
    (translate_mod st o1 o2 o3).1 ≠ .error .unsupportedInstruction := by
  unfold translate_mod
  split
  · exact ⟨onc_refl st, by simp⟩
  split
  · exact ⟨onc_refl st, by simp⟩
  split
  · exact ⟨onc_refl st, by simp⟩
  split
  next e1 st1 heq1 =>
    have h1 := onc_translate_src_oprnd st o1
    rw [heq1] at h1
    exact ⟨h1, by simp [translate_src_oprnd_error heq1]⟩
  next op1Var st1 heq1 =>
    have h1 := onc_translate_src_oprnd st o1
    rw [heq1] at h1
    split
    next e2 st2 heq2 =>
      have h2 := onc_translate_src_oprnd st1 o2
      rw [heq2] at h2
      exact ⟨onc_trans h1 h2, by simp [translate_src_oprnd_error heq2]⟩
    next op2Var st2 heq2 =>
      have h2 := onc_translate_src_oprnd st1 o2
      rw [heq2] at h2
      split
      next e3 st3 heq3 =>
        have h3 := onc_translate_dst_oprnd st2 o3
        rw [heq3] at h3
        refine ⟨onc_trans h1 (onc_trans h2 h3), ?_⟩
        rcases translate_dst_oprnd_error heq3 with hh | hh <;> simp [hh]
      next op3Var pc st3 heq3 =>
        have h3 := onc_translate_dst_oprnd st2 o3
        rw [heq3] at h3
        constructor
        · repeat' split
          all_goals exact onc_trans h1 (onc_trans h2 h3)
        · repeat' split
          all_goals simp

theorem translate_bsh_props (st : SmtTranslator) (o1 o2 o3 : ReilOperand) :
    only_names_changed st (translate_bsh st o1 o2 o3).2 ∧
    (translate_bsh st o1 o2 o3).1 ≠ .error .unsupportedInstruction := by
  unfold translate_bsh
  split
  · exact ⟨onc_refl st, by simp⟩
  split
  · exact ⟨onc_refl st, by simp⟩
  split
  next e1 st1 heq1 =>
    have h1 := onc_translate_src_oprnd st o1
    rw [heq1] at h1
    exact ⟨h1, by simp [translate_src_oprnd_error heq1]⟩
  next op1Var st1 heq1 =>
    have h1 := onc_translate_src_oprnd st o1
    rw [heq1] at h1
    split
    next e2 st2 heq2 =>
      have h2 := onc_translate_src_oprnd st1 o2
      rw [heq2] at h2
      exact ⟨onc_trans h1 h2, by simp [translate_src_oprnd_error heq2]⟩
    next op2Var st2 heq2 =>
      have h2 := onc_translate_src_oprnd st1 o2
      rw [heq2] at h2
      split
      next e3 st3 heq3 =>
        have h3 := onc_translate_dst_oprnd st2 o3
        rw [heq3] at h3
        refine ⟨onc_trans h1 (onc_trans h2 h3), ?_⟩
        rcases translate_dst_oprnd_error heq3 with hh | hh <;> simp [hh]
      next op3Var pc st3 heq3 =>
        have h3 := onc_translate_dst_oprnd st2 o3
        rw [heq3] at h3
        constructor
        · repeat' split
          all_goals exact onc_trans h1 (onc_trans h2 h3)
        · repeat' split
          all_goals simp

theorem translate_and_props (st : SmtTranslator) (o1 o2 o3 : ReilOperand) :
    only_names_changed st (translate_and st o1 o2 o3).2 ∧
    (translate_and st o1 o2 o3).1 ≠ .error .unsupportedInstruction := by
  unfold translate_and
  split
  · exact ⟨onc_refl st, by simp⟩
  split
  · exact ⟨onc_refl st, by simp⟩
  split
  next e1 st1 heq1 =>
    have h1 := onc_translate_src_oprnd st o1
    rw [heq1] at h1
    exact ⟨h1, by simp [translate_src_oprnd_error heq1]⟩
  next op1Var st1 heq1 =>
    have h1 := onc_translate_src_oprnd st o1
    rw [heq1] at h1
    split
    next e2 st2 heq2 =>
      have h2 := onc_translate_src_oprnd st1 o2
      rw [heq2] at h2
      exact ⟨onc_trans h1 h2, by simp [translate_src_oprnd_error heq2]⟩
    next op2Var st2 heq2 =>
      have h2 := onc_translate_src_oprnd st1 o2
      rw [heq2] at h2
      split
      next e3 st3 heq3 =>
        have h3 := onc_translate_dst_oprnd st2 o3
        rw [heq3] at h3
        refine ⟨onc_trans h1 (onc_trans h2 h3), ?_⟩
        rcases translate_dst_oprnd_error heq3 with hh | hh <;> simp [hh]
      next op3Var pc st3 heq3 =>
        have h3 := onc_translate_dst_oprnd st2 o3
        rw [heq3] at h3
        constructor
        · repeat' split
          all_goals exact onc_trans h1 (onc_trans h2 h3)
        · repeat' split
          all_goals simp

theorem translate_or_props (st : SmtTranslator) (o1 o2 o3 : ReilOperand) :
    only_names_changed st (translate_or st o1 o2 o3).2 ∧
    (translate_or st o1 o2 o3).1 ≠ .error .unsupportedInstruction := by
  unfold translate_or
  split
  · exact ⟨onc_refl st, by simp⟩
  split
  · exact ⟨onc_refl st, by simp⟩
  split
  next e1 st1 heq1 =>
    have h1 := onc_translate_src_oprnd st o1
    rw [heq1] at h1
    exact ⟨h1, by simp [translate_src_oprnd_error heq1]⟩
  next op1Var st1 heq1 =>
    have h1 := onc_translate_src_oprnd st o1
    rw [heq1] at h1
    split
    next e2 st2 heq2 =>
      have h2 := onc_translate_src_oprnd st1 o2
      rw [heq2] at h2
      exact ⟨onc_trans h1 h2, by simp [translate_src_oprnd_error heq2]⟩
    next op2Var st2 heq2 =>
      have h2 := onc_translate_src_oprnd st1 o2
      rw [heq2] at h2
      split
      next e3 st3 heq3 =>
        have h3 := onc_translate_dst_oprnd st2 o3
        rw [heq3] at h3
        refine ⟨onc_trans h1 (onc_trans h2 h3), ?_⟩
        rcases translate_dst_oprnd_error heq3 with hh | hh <;> simp [hh]
      next op3Var pc st3 heq3 =>
        have h3 := onc_translate_dst_oprnd st2 o3
        rw [heq3] at h3
        constructor
        · repeat' split
          all_goals exact onc_trans h1 (onc_trans h2 h3)
        · repeat' split
          all_goals simp

theorem translate_xor_props (st : SmtTranslator) (o1 o2 o3 : ReilOperand) :
    only_names_changed st (translate_xor st o1 o2 o3).2 ∧
    (translate_xor st o1 o2 o3).1 ≠ .error .unsupportedInstruction := by
  unfold translate_xor
  split
  · exact ⟨onc_refl st, by simp⟩
  split
  · exact ⟨onc_refl st, by simp⟩
  split
  next e1 st1 heq1 =>
    have h1 := onc_translate_src_oprnd st o1
    rw [heq1] at h1
    exact ⟨h1, by simp [translate_src_oprnd_error heq1]⟩
  next op1Var st1 heq1 =>
    have h1 := onc_translate_src_oprnd st o1
    rw [heq1] at h1
    split
    next e2 st2 heq2 =>
      have h2 := onc_translate_src_oprnd st1 o2
      rw [heq2] at h2
      exact ⟨onc_trans h1 h2, by simp [translate_src_oprnd_error heq2]⟩
    next op2Var st2 heq2 =>
      have h2 := onc_translate_src_oprnd st1 o2
      rw [heq2] at h2
      split
      next e3 st3 heq3 =>
        have h3 := onc_translate_dst_oprnd st2 o3
        rw [heq3] at h3
        refine ⟨onc_trans h1 (onc_trans h2 h3), ?_⟩
        rcases translate_dst_oprnd_error heq3 with hh | hh <;> simp [hh]
      next op3Var pc st3 heq3 =>
        have h3 := onc_translate_dst_oprnd st2 o3
        rw [heq3] at h3
        constructor
        · repeat' split
          all_goals exact onc_trans h1 (onc_trans h2 h3)
        · repeat' split
          all_goals simp

theorem translate_ldm_props (st : SmtTranslator) (o1 o2 o3 : ReilOperand) :
    only_names_changed st (translate_ldm st o1 o2 o3).2 ∧
    (translate_ldm st o1 o2 o3).1 ≠ .error .unsupportedInstruction := by
  unfold translate_ldm
  split
  · exact ⟨onc_refl st, by simp⟩
  split
  · exact ⟨onc_refl st, by simp⟩
  split
  next e1 st1 heq1 =>
    have h1 := onc_translate_src_oprnd st o1
    rw [heq1] at h1
    exact ⟨h1, by simp [translate_src_oprnd_error heq1]⟩
  next op1Var st1 heq1 =>
    have h1 := onc_translate_src_oprnd st o1
    rw [heq1] at h1
    split
    next e2 st2 heq2 =>
      have h2 := onc_translate_dst_oprnd st1 o3
      rw [heq2] at h2
      refine ⟨onc_trans h1 h2, ?_⟩
      rcases translate_dst_oprnd_error heq2 with hh | hh <;> simp [hh]
    next op3Var pc st2 heq2 =>
      have h2 := onc_translate_dst_oprnd st1 o3
      rw [heq2] at h2
      constructor
      · repeat' split
        all_goals exact onc_trans h1 h2
      · repeat' split
        all_goals simp

theorem translate_str_props (st : SmtTranslator) (o1 o2 o3 : ReilOperand) :
    only_names_changed st (translate_str st o1 o2 o3).2 ∧
    (translate_str st o1 o2 o3).1 ≠ .error .unsupportedInstruction := by
  unfold translate_str
  split
  · exact ⟨onc_refl st, by simp⟩
  split
  next e1 st1 heq1 =>
    have h1 := onc_translate_src_oprnd st o1
    rw [heq1] at h1
    exact ⟨h1, by simp [translate_src_oprnd_error heq1]⟩
  next op1Var st1 heq1 =>
    have h1 := onc_translate_src_oprnd st o1
    rw [heq1] at h1
    split
    next e2 st2 heq2 =>
      have h2 := onc_translate_dst_oprnd st1 o3
      rw [heq2] at h2
      refine ⟨onc_trans h1 h2, ?_⟩
      rcases translate_dst_oprnd_error heq2 with hh | hh <;> simp [hh]
    next op3Var pc st2 heq2 =>
      have h2 := onc_translate_dst_oprnd st1 o3
      rw [heq2] at h2
      constructor
      · repeat' split
        all_goals exact onc_trans h1 h2
      · repeat' split
        all_goals simp

theorem translate_bisz_props (st : SmtTranslator) (o1 o2 o3 : ReilOperand) :
    only_names_changed st (translate_bisz st o1 o2 o3).2 ∧
    (translate_bisz st o1 o2 o3).1 ≠ .error .unsupportedInstruction := by
  unfold translate_bisz
  split
  · exact ⟨onc_refl st, by simp⟩
  split
  next e1 st1 heq1 =>
    have h1 := onc_translate_src_oprnd st o1
    rw [heq1] at h1
    exact ⟨h1, by simp [translate_src_oprnd_error heq1]⟩
  next op1Var st1 heq1 =>
    have h1 := onc_translate_src_oprnd st o1
    rw [heq1] at h1
    split
    next e2 st2 heq2 =>
      have h2 := onc_translate_dst_oprnd st1 o3
      rw [heq2] at h2
      refine ⟨onc_trans h1 h2, ?_⟩
      rcases translate_dst_oprnd_error heq2 with hh | hh <;> simp [hh]
    next op3Var pc st2 heq2 =>
      have h2 := onc_translate_dst_oprnd st1 o3
      rw [heq2] at h2
      constructor
      · repeat' split
        all_goals exact onc_trans h1 h2
      · repeat' split
        all_goals simp

theorem translate_jcc_props (st : SmtTranslator) (o1 o2 o3 : ReilOperand) :
    only_names_changed st (translate_jcc st o1 o2 o3).2 ∧
    (translate_jcc st o1 o2 o3).1 ≠ .error .unsupportedInstruction :=
  ⟨onc_refl st, by simp [translate_jcc]⟩

theorem translate_undef_props (st : SmtTranslator) (o1 o2 o3 : ReilOperand) :
    only_names_changed st (translate_undef st o1 o2 o3).2 ∧
    (translate_undef st o1 o2 o3).1 ≠ .error .unsupportedInstruction :=
  ⟨onc_refl st, by simp [translate_undef]⟩

theorem translate_nop_props (st : SmtTranslator) (o1 o2 o3 : ReilOperand) :
    only_names_changed st (translate_nop st o1 o2 o3).2 ∧
    (translate_nop st o1 o2 o3).1 ≠ .error .unsupportedInstruction :=
  ⟨onc_refl st, by simp [translate_nop]⟩

theorem translate_ret_props (st : SmtTranslator) (o1 o2 o3 : ReilOperand) :
    only_names_changed st (translate_ret st o1 o2 o3).2 ∧
    (translate_ret st o1 o2 o3).1 ≠ .error .unsupportedInstruction :=
  ⟨onc_refl st, by simp [translate_ret]⟩

/-- STM keeps the initial-memory snapshot and the solver context, and
never raises the unsupported-instruction error. -/
theorem translate_stm_frame (st : SmtTranslator) (o1 o2 o3 : ReilOperand) :
    (translate_stm st o1 o2 o3).2.memInit = st.memInit ∧
    (translate_stm st o1 o2 o3).2.solverAssertions = st.solverAssertions ∧
    (translate_stm st o1 o2 o3).1 ≠ .error .unsupportedInstruction := by
  unfold translate_stm
  split
  · exact ⟨rfl, rfl, by simp⟩
  split
  · exact ⟨rfl, rfl, by simp⟩
  split
  next e1 st1 heq1 =>
    have h1 := onc_translate_src_oprnd st o1
    rw [heq1] at h1
    exact ⟨h1.2.2.2.1, h1.2.2.2.2.2.2, by simp [translate_src_oprnd_error heq1]⟩
  next op1Var st1 heq1 =>
    have h1 := onc_translate_src_oprnd st o1
    rw [heq1] at h1
    split
    next e2 st2 heq2 =>
      have h2 := onc_translate_src_oprnd st1 o3
      rw [heq2] at h2
      have h := onc_trans h1 h2
      exact ⟨h.2.2.2.1, h.2.2.2.2.2.2, by simp [translate_src_oprnd_error heq2]⟩
    next op3Var st2 heq2 =>
      have h2 := onc_translate_src_oprnd st1 o3
      rw [heq2] at h2
      have h := onc_trans h1 h2
      exact ⟨h.2.2.2.1, h.2.2.2.2.2.2, by simp⟩

/-- When STM fails, the whole state frame (memory handle and version
counter included) is untouched apart from name counters. -/
theorem translate_stm_error_onc {st : SmtTranslator} {o1 o2 o3 : ReilOperand}
    {e : TransError} {st' : SmtTranslator}
    (h : translate_stm st o1 o2 o3 = (.error e, st')) :
    only_names_changed st st' := by
  unfold translate_stm at h
  split at h
  · simp only [Prod.mk.injEq] at h
    rw [← h.2]
    exact onc_refl st
  split at h
  · simp only [Prod.mk.injEq] at h
    rw [← h.2]
    exact onc_refl st
  split at h
  next e1 st1 heq1 =>
    have h1 := onc_translate_src_oprnd st o1
    rw [heq1] at h1
    simp only [Prod.mk.injEq] at h
    rw [← h.2]
    exact h1
  next op1Var st1 heq1 =>
    have h1 := onc_translate_src_oprnd st o1
    rw [heq1] at h1
    split at h
    next e2 st2 heq2 =>
      have h2 := onc_translate_src_oprnd st1 o3
      rw [heq2] at h2
      simp only [Prod.mk.injEq] at h
      rw [← h.2]
      exact onc_trans h1 h2
    next op3Var st2 heq2 =>
      simp at h

/-- When STM succeeds, the current-memory handle is rebound to the
fresh versioned array and the memory version counter is bumped. -/
theorem translate_stm_ok_mem {st : SmtTranslator} {o1 o2 o3 : ReilOperand}
    {rv : List SmtAssert} {st' : SmtTranslator}
    (h : translate_stm st o1 o2 o3 = (.ok rv, st')) :
    st'.mem = .arrvar st.addressSize ("MEM_" ++ toString (st.memInstance + 1)) ∧
    st'.memInstance = st.memInstance + 1 := by
  unfold translate_stm at h
  split at h
  · simp at h
  split at h
  · simp at h
  split at h
  next e1 st1 heq1 => simp at h
  next op1Var st1 heq1 =>
    split at h
    next e2 st2 heq2 => simp at h
    next op3Var st2 heq2 =>
      have h1 := onc_translate_src_oprnd st o1
      rw [heq1] at h1
      have h2 := onc_translate_src_oprnd st1 o3
      rw [heq2] at h2
      have hmi : st2.memInstance = st.memInstance := (onc_trans h1 h2).2.2.1
      simp only [Prod.mk.injEq] at h
      rw [← h.2]
      exact ⟨by simp [hmi], by simp [hmi]⟩

/-- Projection of the frame relation used for the whole-translator
frame lemma. -/
theorem onc_memInit_solver {s t : SmtTranslator} (h : only_names_changed s t) :
    t.memInit = s.memInit ∧ t.solverAssertions = s.solverAssertions :=
  ⟨h.2.2.2.1, h.2.2.2.2.2.2⟩

/-- Whatever the instruction and outcome, translate never touches the
initial-memory snapshot nor the solver assertion context. -/
theorem translate_frame (st : SmtTranslator) (instr : ReilInstruction) :
    (translate st instr).2.memInit = st.memInit ∧
    (translate st instr).2.solverAssertions = st.solverAssertions := by
  unfold translate
  split
  · split
    · exact onc_memInit_solver (translate_add_props st _ _ _).1
    · exact onc_memInit_solver (translate_sub_props st _ _ _).1
    · exact onc_memInit_solver (translate_mul_props st _ _ _).1
    · exact onc_memInit_solver (translate_div_props st _ _ _).1
    · exact onc_memInit_solver (translate_mod_props st _ _ _).1
    · exact onc_memInit_solver (translate_bsh_props st _ _ _).1
    · exact onc_memInit_solver (translate_and_props st _ _ _).1
    · exact onc_memInit_solver (translate_or_props st _ _ _).1
    · exact onc_memInit_solver (translate_xor_props st _ _ _).1
    · exact onc_memInit_solver (translate_ldm_props st _ _ _).1
    · exact ⟨(translate_stm_frame st _ _ _).1, (translate_stm_frame st _ _ _).2.1⟩
    · exact onc_memInit_solver (translate_str_props st _ _ _).1
    · exact onc_memInit_solver (translate_bisz_props st _ _ _).1
    · exact onc_memInit_solver (translate_jcc_props st _ _ _).1
    · exact ⟨rfl, rfl⟩
    · exact onc_memInit_solver (translate_undef_props st _ _ _).1
    · exact onc_memInit_solver (translate_nop_props st _ _ _).1
    · exact onc_memInit_solver (translate_ret_props st _ _ _).1
  · exact ⟨rfl, rfl⟩

/-- Failed translation leaves the memory handle, the memory version
counter and the solver context exactly as they were. -/
theorem translate_error_state {st : SmtTranslator} {instr : ReilInstruction}
    {e : TransError} {st' : SmtTranslator}
    (h : translate st instr = (.error e, st')) :
    st'.mem = st.mem ∧ st'.memInstance = st.memInstance ∧
    st'.solverAssertions = st.solverAssertions := by
  unfold translate at h
  split at h
  next o1 o2 o3 heq0 =>
    split at h
    · have hh := (translate_add_props st o1 o2 o3).1
      rw [h] at hh
      exact ⟨hh.2.1, hh.2.2.1, hh.2.2.2.2.2.2⟩
    · have hh := (translate_sub_props st o1 o2 o3).1
      rw [h] at hh
      exact ⟨hh.2.1, hh.2.2.1, hh.2.2.2.2.2.2⟩
    · have hh := (translate_mul_props st o1 o2 o3).1
      rw [h] at hh
      exact ⟨hh.2.1, hh.2.2.1, hh.2.2.2.2.2.2⟩
    · have hh := (translate_div_props st o1 o2 o3).1
      rw [h] at hh
      exact ⟨hh.2.1, hh.2.2.1, hh.2.2.2.2.2.2⟩
    · have hh := (translate_mod_props st o1 o2 o3).1
      rw [h] at hh
      exact ⟨hh.2.1, hh.2.2.1, hh.2.2.2.2.2.2⟩
    · have hh := (translate_bsh_props st o1 o2 o3).1
      rw [h] at hh
      exact ⟨hh.2.1, hh.2.2.1, hh.2.2.2.2.2.2⟩
    · have hh := (translate_and_props st o1 o2 o3).1
      rw [h] at hh
      exact ⟨hh.2.1, hh.2.2.1, hh.2.2.2.2.2.2⟩
    · have hh := (translate_or_props st o1 o2 o3).1
      rw [h] at hh
      exact ⟨hh.2.1, hh.2.2.1, hh.2.2.2.2.2.2⟩
    · have hh := (translate_xor_props st o1 o2 o3).1
      rw [h] at hh
      exact ⟨hh.2.1, hh.2.2.1, hh.2.2.2.2.2.2⟩
    · have hh := (translate_ldm_props st o1 o2 o3).1
      rw [h] at hh
      exact ⟨hh.2.1, hh.2.2.1, hh.2.2.2.2.2.2⟩
    · have hh := translate_stm_error_onc h
      exact ⟨hh.2.1, hh.2.2.1, hh.2.2.2.2.2.2⟩
    · have hh := (translate_str_props st o1 o2 o3).1
      rw [h] at hh
      exact ⟨hh.2.1, hh.2.2.1, hh.2.2.2.2.2.2⟩
    · have hh := (translate_bisz_props st o1 o2 o3).1
      rw [h] at hh
      exact ⟨hh.2.1, hh.2.2.1, hh.2.2.2.2.2.2⟩
    · simp only [translate_jcc, Prod.mk.injEq] at h
      exact absurd h.1 (by simp)
    · simp only [translate_unkn, Prod.mk.injEq] at h
      rw [← h.2]
      exact ⟨rfl, rfl, rfl⟩
    · simp only [translate_undef, Prod.mk.injEq] at h
      exact absurd h.1 (by simp)
    · simp only [translate_nop, Prod.mk.injEq] at h
      exact absurd h.1 (by simp)
    · simp only [translate_ret, Prod.mk.injEq] at h
      exact absurd h.1 (by simp)
  · simp only [Prod.mk.injEq] at h
    rw [← h.2]
    exact ⟨rfl, rfl, rfl⟩

/-- Only the UNKN translator raises the unsupported-instruction
error. -/
theorem translate_unsupported_mnemonic {st : SmtTranslator}
    {instr : ReilInstruction} {st' : SmtTranslator}
    (h : translate st instr = (.error .unsupportedInstruction, st')) :
    instr.mnemonic = .UNKN := by
  unfold translate at h
  split at h
  next o1 o2 o3 heq0 =>
    split at h
    · exact absurd (congrArg Prod.fst h) (translate_add_props st o1 o2 o3).2
    · exact absurd (congrArg Prod.fst h) (translate_sub_props st o1 o2 o3).2
    · exact absurd (congrArg Prod.fst h) (translate_mul_props st o1 o2 o3).2
    · exact absurd (congrArg Prod.fst h) (translate_div_props st o1 o2 o3).2
    · exact absurd (congrArg Prod.fst h) (translate_mod_props st o1 o2 o3).2
    · exact absurd (congrArg Prod.fst h) (translate_bsh_props st o1 o2 o3).2
    · exact absurd (congrArg Prod.fst h) (translate_and_props st o1 o2 o3).2
    · exact absurd (congrArg Prod.fst h) (translate_or_props st o1 o2 o3).2
    · exact absurd (congrArg Prod.fst h) (translate_xor_props st o1 o2 o3).2
    · exact absurd (congrArg Prod.fst h) (translate_ldm_props st o1 o2 o3).2
    · exact absurd (congrArg Prod.fst h) (translate_stm_frame st o1 o2 o3).2.2
    · exact absurd (congrArg Prod.fst h) (translate_str_props st o1 o2 o3).2
    · exact absurd (congrArg Prod.fst h) (translate_bisz_props st o1 o2 o3).2
    · exact absurd (congrArg Prod.fst h) (translate_jcc_props st o1 o2 o3).2
    · assumption
    · exact absurd (congrArg Prod.fst h) (translate_undef_props st o1 o2 o3).2
    · exact absurd (congrArg Prod.fst h) (translate_nop_props st o1 o2 o3).2
    · exact absurd (congrArg Prod.fst h) (translate_ret_props st o1 o2 o3).2
  · simp at h

/-! Association-list and SSA-naming lemmas. -/

theorem alist_get_set_self {α : Type} (l : List (String × α)) (k : String) (v : α) :
    alist_get (alist_set l k v) k = some v := by
  induction l with
  | nil => simp [alist_set, alist_get]
  | cons p rest ih =>
    obtain ⟨k', v'⟩ := p
    by_cases hk : k' = k <;> simp [alist_set, alist_get, hk, ih]

theorem alist_get_set_ne {α : Type} (l : List (String × α)) (k k' : String) (v : α)
    (h : k ≠ k') : alist_get (alist_set l k v) k' = alist_get l k' := by
  induction l with
  | nil => simp [alist_set, alist_get, h]
  | cons p rest ih =>
    obtain ⟨k'', v''⟩ := p
    by_cases hk : k'' = k
    · subst hk
      simp [alist_set, alist_get, h]
    · simp [alist_set, alist_get, hk, ih]

/-- Registering a name does not change any current SSA name. -/
theorem current_name_of_register_name (st : SmtTranslator) (n m : String) :
    current_name_of (register_name st n) m = current_name_of st m := by
  unfold current_name_of register_name
  split
  · rfl
  next hnone =>
    by_cases hm : n = m
    · subst hm
      simp [alist_get_set_self, hnone]
    · simp [alist_get_set_ne _ _ _ _ hm]

/-- Reading a current name (fresh = false) does not change any current
SSA name. -/
theorem current_name_of_get_var_name_false (st : SmtTranslator) (n m : String) :
    current_name_of (get_var_name st n false).2 m = current_name_of st m :=
  current_name_of_register_name st n m

/-- A non-fresh lookup returns the current SSA name of the pre-state. -/
theorem get_var_name_false_curr (st : SmtTranslator) (n : String) :
    (get_var_name st n false).1 = current_name_of st n := by
  unfold get_var_name register_name current_name_of
  split
  · rfl
  next hnone => simp [alist_get_set_self, hnone]

/-- A fresh lookup returns exactly the current SSA name of the
post-state. -/
theorem get_var_name_true_curr (st : SmtTranslator) (n : String) :
    current_name_of (get_var_name st n true).2 n = (get_var_name st n true).1 := by
  unfold get_var_name current_name_of
  simp [alist_get_set_self]

/-- Source operand translation does not change any current SSA name. -/
theorem current_name_of_translate_src_oprnd (st : SmtTranslator) (o : ReilOperand)
    (m : String) :
    current_name_of (translate_src_oprnd st o).2 m = current_name_of st m := by
  unfold translate_src_oprnd translate_src_register_oprnd
  split
  · split
    · simp only []
      split <;> exact current_name_of_get_var_name_false st _ m
    · exact current_name_of_get_var_name_false st _ m
  · split
    · simp only []
      split <;> exact current_name_of_get_var_name_false st _ m
    · exact current_name_of_get_var_name_false st _ m
  · rfl

/-- get_curr_name returns the current SSA name of the pre-state. -/
theorem get_curr_name_curr (st : SmtTranslator) (n : String) :
    (get_curr_name st n).1 = current_name_of st n := by
  unfold get_curr_name register_name current_name_of
  split
  · rfl
  next hnone => simp [alist_get_set_self, hnone]

/-! Successful arithmetic and bitwise translations return exactly one
assertion: the preservation constraints computed for the destination
are discarded. -/

theorem translate_add_ok_length {st : SmtTranslator} {o1 o2 o3 : ReilOperand}
    {rv : List SmtAssert} {st' : SmtTranslator}
    (h : translate_add st o1 o2 o3 = (.ok rv, st')) : rv.length = 1 := by
  unfold translate_add at h
  split at h
  · simp at h
  split at h
  · simp at h
  split at h
  next => simp at h
  next op1Var st1 heq1 =>
    split at h
    next => simp at h
    next op2Var st2 heq2 =>
      split at h
      next => simp at h
      next op3Var pc st3 heq3 =>
        repeat' split at h
        all_goals (simp only [Prod.mk.injEq, Except.ok.injEq] at h; rw [← h.1]; rfl)

theorem translate_sub_ok_length {st : SmtTranslator} {o1 o2 o3 : ReilOperand}
    {rv : List SmtAssert} {st' : SmtTranslator}
    (h : translate_sub st o1 o2 o3 = (.ok rv, st')) : rv.length = 1 := by
  unfold translate_sub at h
  split at h
  · simp at h
  split at h
  · simp at h
  split at h
  next => simp at h
  next op1Var st1 heq1 =>
    split at h
    next => simp at h
    next op2Var st2 heq2 =>
      split at h
      next => simp at h
      next op3Var pc st3 heq3 =>
        repeat' split at h
        all_goals (simp only [Prod.mk.injEq, Except.ok.injEq] at h; rw [← h.1]; rfl)

theorem translate_mul_ok_length {st : SmtTranslator} {o1 o2 o3 : ReilOperand}
    {rv : List SmtAssert} {st' : SmtTranslator}
    (h : translate_mul st o1 o2 o3 = (.ok rv, st')) : rv.length = 1 := by
  unfold translate_mul at h
  split at h
  · simp at h
  split at h
  · simp at h
  split at h
  next => simp at h
  next op1Var st1 heq1 =>
    split at h
    next => simp at h
    next op2Var st2 heq2 =>
      split at h
      next => simp at h
      next op3Var pc st3 heq3 =>
        repeat' split at h
        all_goals (simp only [Prod.mk.injEq, Except.ok.injEq] at h; rw [← h.1]; rfl)

theorem translate_div_ok_length {st : SmtTranslator} {o1 o2 o3 : ReilOperand}
    {rv : List SmtAssert} {st' : SmtTranslator}
    (h : translate_div st o1 o2 o3 = (.ok rv, st')) : rv.length = 1 := by
  unfold translate_div at h
  split at h
  · simp at h
  split at h
  · simp at h
  split at h
  · simp at h
  split at h
  next => simp at h
  next op1Var st1 heq1 =>
    split at h
    next => simp at h
    next op2Var st2 heq2 =>
      split at h
      next => simp at h
      next op3Var pc st3 heq3 =>
        repeat' split at h
        all_goals (simp only [Prod.mk.injEq, Except.ok.injEq] at h; rw [← h.1]; rfl)

theorem translate_mod_ok_length {st : SmtTranslator} {o1 o2 o3 : ReilOperand}
    {rv : List SmtAssert} {st' : SmtTranslator}
    (h : translate_mod st o1 o2 o3 = (.ok rv, st')) : rv.length = 1 := by
  unfold translate_mod at h
  split at h
  · simp at h
  split at h
  · simp at h
  split at h
  · simp at h
  split at h
  next => simp at h
  next op1Var st1 heq1 =>
    split at h
    next => simp at h
    next op2Var st2 heq2 =>
      split at h
      next => simp at h
      next op3Var pc st3 heq3 =>
        repeat' split at h
        all_goals (simp only [Prod.mk.injEq, Except.ok.injEq] at h; rw [← h.1]; rfl)

theorem translate_bsh_ok_length {st : SmtTranslator} {o1 o2 o3 : ReilOperand}
    {rv : List SmtAssert} {st' : SmtTranslator}
    (h : translate_bsh st o1 o2 o3 = (.ok rv, st')) : rv.length = 1 := by
  unfold translate_bsh at h
  split at h
  · simp at h
  split at h
  · simp at h
  split at h
  next => simp at h
  next op1Var st1 heq1 =>
    split at h
    next => simp at h
    next op2Var st2 heq2 =>
      split at h
      next => simp at h
      next op3Var pc st3 heq3 =>
        repeat' split at h
        all_goals (simp only [Prod.mk.injEq, Except.ok.injEq] at h; rw [← h.1]; rfl)

theorem translate_and_ok_length {st : SmtTranslator} {o1 o2 o3 : ReilOperand}
    {rv : List SmtAssert} {st' : SmtTranslator}
    (h : translate_and st o1 o2 o3 = (.ok rv, st')) : rv.length = 1 := by
  unfold translate_and at h
  split at h
  · simp at h
  split at h
  · simp at h
  split at h
  next => simp at h
  next op1Var st1 heq1 =>
    split at h
    next => simp at h
    next op2Var st2 heq2 =>
      split at h
      next => simp at h
      next op3Var pc st3 heq3 =>
        repeat' split at h
        all_goals (simp only [Prod.mk.injEq, Except.ok.injEq] at h; rw [← h.1]; rfl)

theorem translate_or_ok_length {st : SmtTranslator} {o1 o2 o3 : ReilOperand}
    {rv : List SmtAssert} {st' : SmtTranslator}
    (h : translate_or st o1 o2 o3 = (.ok rv, st')) : rv.length = 1 := by
  unfold translate_or at h
  split at h
  · simp at h
  split at h
  · simp at h
  split at h
  next => simp at h
  next op1Var st1 heq1 =>
    split at h
    next => simp at h
    next op2Var st2 heq2 =>
      split at h
      next => simp at h
      next op3Var pc st3 heq3 =>
        repeat' split at h
        all_goals (simp only [Prod.mk.injEq, Except.ok.injEq] at h; rw [← h.1]; rfl)

theorem translate_xor_ok_length {st : SmtTranslator} {o1 o2 o3 : ReilOperand}
    {rv : List SmtAssert} {st' : SmtTranslator}
    (h : translate_xor st o1 o2 o3 = (.ok rv, st')) : rv.length = 1 := by
  unfold translate_xor at h
  split at h
  · simp at h
  split at h
  · simp at h
  split at h
  next => simp at h
  next op1Var st1 heq1 =>
    split at h
    next => simp at h
    next op2Var st2 heq2 =>
      split at h
      next => simp at h
      next op3Var pc st3 heq3 =>
        repeat' split at h
        all_goals (simp only [Prod.mk.injEq, Except.ok.injEq] at h; rw [← h.1]; rfl)

/-- Every byte-aligned offset of the base register lying outside the
written alias range contributes its preservation constraint to the
constraint list. -/
theorem mem_parent_reg_constrs_list {newBV oldBV : SmtExpr}
    {varSize varShift opSize i : Nat}
    (hi8 : i % 8 = 0) (hiv : i < varSize)
    (hout : ¬ (varShift ≤ i ∧ i < varShift + opSize)) :
    SmtAssert.cond (.eq (.extract newBV i 8) (.extract oldBV i 8)) ∈
      parent_reg_constrs_list newBV oldBV varSize varShift opSize := by
  unfold parent_reg_constrs_list
  rw [List.mem_map]
  refine ⟨i, ?_, rfl⟩
  rw [List.mem_filter]
  constructor
  · rw [List.mem_reverse]
    unfold byte_offsets
    rw [List.mem_map]
    exact ⟨i / 8, by rw [List.mem_range]; omega, by omega⟩
  · simp only [decide_eq_true_eq]
    omega

/-- A value below `2 ^ n` whose bits from `m` upward are all zero is
below `2 ^ m`. -/
theorem high_bits_zero_lt {x m n : Nat} (hmn : m < n) (hx : x < 2 ^ n)
    (hz : x / 2 ^ m % 2 ^ (n - m) = 0) : x < 2 ^ m := by
  have hdivlt : x / 2 ^ m < 2 ^ (n - m) := by
    rw [Nat.div_lt_iff_lt_mul (Nat.pos_pow_of_pos m (by norm_num))]
    calc x < 2 ^ n := hx
    _ = 2 ^ (n - m) * 2 ^ m := by rw [← pow_add]; congr 1; omega
  have hdiv0 : x / 2 ^ m = 0 := by
    rw [Nat.mod_eq_of_lt hdivlt] at hz
    exact hz
  have := (Nat.div_eq_zero_iff (Nat.pos_pow_of_pos m (by norm_num))).mp hdiv0
  exact this

/-! Concrete fixtures used by claim witnesses and counterexamples. -/

/-- Translator over a 32-bit architecture with base register `eax` and
its low-byte alias `al` = (eax, 0xFF, 0). -/
def stAlias : SmtTranslator :=
  { SmtTranslator.mk_init 32 with
    archRegsSize := [("eax", 32)]
    regAccessMapper := [("al", ("eax", 255, 0))] }

/-- Translator with an alias entry whose base register size is missing,
so destination translation fails with a KeyError. -/
def stAliasNoSize : SmtTranslator :=
  { SmtTranslator.mk_init 32 with
    regAccessMapper := [("al", ("eax", 255, 0))] }

/-- Instruction `ADD imm(1, 8), imm(2, 8) -> al(8)`. -/
def instrAddAl : ReilInstruction :=
  ⟨.ADD, [reilImm 1 8, reilImm 2 8, .reg "al" 8]⟩

/-- Instruction `ADD t0(32), t1(32) -> t2(32)`. -/
def instrAddT : ReilInstruction :=
  ⟨.ADD, [.reg "t0" 32, .reg "t1" 32, .reg "t2" 32]⟩

/-- Claim C5, counterexample: `Immediate(256, 8)` stores 256 itself,
not `256 mod 2^8 = 0` — non-negative values are never reduced. -/
theorem c5_counterexample :
    (reilImm 256 8).immediate = 256 ∧ ((256 : Int) % 2 ^ 8 = 0) ∧
    (reilImm 256 8).immediate ≠ 256 % 2 ^ 8 := by
  decide

/-- Claim C5 (amended): `Immediate(v, s)` stores `v` unreduced when
`v ≥ 0` and `2^s + v` when `v < 0`; this equals `v mod 2^s` exactly on
the range `-2^s ≤ v < 2^s`. -/
theorem c5_immediate_normalization (v : Int) (s : Nat) (hs : 0 < s) :
    (v < 0 → (reilImm v s).immediate = 2 ^ s + v) ∧
    (-(2 ^ s) ≤ v → v < 2 ^ s → (reilImm v s).immediate = v % 2 ^ s) := by
  have himm : (reilImm v s).immediate = mk_immediate v s := rfl
  rw [himm]
  unfold mk_immediate
  rw [if_pos (Nat.pos_iff_ne_zero.mp hs)]
  constructor
  · intro hv
    rw [if_neg (not_le.mpr hv)]
    ring
  · intro hlo hhi
    by_cases hv : 0 ≤ v
    · rw [if_pos hv]
      exact (Int.emod_eq_of_lt hv hhi).symm
    · push_neg at hv
      rw [if_neg (not_le.mpr hv)]
      have h0 : (0 : Int) ≤ v + 2 ^ s := by linarith
      have h1 : v + 2 ^ s < 2 ^ s := by linarith
      calc (2 : Int) ^ s - -v = v + 2 ^ s := by ring
      _ = (v + 2 ^ s) % 2 ^ s := (Int.emod_eq_of_lt h0 h1).symm
      _ = v % 2 ^ s := by
            rw [show v + 2 ^ s = v + 2 ^ s * 1 by ring, Int.add_mul_emod_self_left]

/-- Claim C5 witness at `v = -3`, `s = 8`. -/
theorem c5_immediate_normalization_witness :
    ((-3 : Int) < 0 → (reilImm (-3) 8).immediate = 2 ^ 8 + (-3)) ∧
    (-(2 ^ 8) ≤ (-3 : Int) → (-3 : Int) < 2 ^ 8 →
      (reilImm (-3) 8).immediate = (-3) % 2 ^ 8) :=
  c5_immediate_normalization (-3) 8 (by norm_num)

/-- Claim C6: when translate raises any error, the solver context, the
current-memory handle and the memory version counter are exactly as
they were before the call. -/
theorem c6_error_preserves_solver_and_memory (st : SmtTranslator)
    (instr : ReilInstruction) (e : TransError) (st' : SmtTranslator)
    (h : translate st instr = (.error e, st')) :
    st'.solverAssertions = st.solverAssertions ∧
    st'.mem = st.mem ∧ st'.memInstance = st.memInstance :=
  ⟨(translate_error_state h).2.2, (translate_error_state h).1,
   (translate_error_state h).2.1⟩

/-- Claim C6 witness: a KeyError raised while translating the aliased
destination (the name counters have already moved) still leaves the
solver context, memory handle and memory version intact. -/
theorem c6_error_preserves_solver_and_memory_witness :
    (translate stAliasNoSize instrAddAl).2.solverAssertions =
        stAliasNoSize.solverAssertions ∧
    (translate stAliasNoSize instrAddAl).2.mem = stAliasNoSize.mem ∧
    (translate stAliasNoSize instrAddAl).2.memInstance =
        stAliasNoSize.memInstance :=
  c6_error_preserves_solver_and_memory stAliasNoSize instrAddAl .keyError
    (translate stAliasNoSize instrAddAl).2 rfl

/-- Claim C7: translating `ADD t0, t1 -> t2` returns the defining
equation, but nothing is ever asserted into the solver context — for
any instruction the solver assertion list after translate equals the
one before, contradicting the documented side effect. -/
theorem c7_translate_returns_but_does_not_assert :
    (translate (SmtTranslator.mk_init 32) instrAddT).1 =
      .ok [.cond (.eq (.var 32 "t2_1") (.bvadd (.var 32 "t0_0") (.var 32 "t1_0")))] ∧
    (translate (SmtTranslator.mk_init 32) instrAddT).2.solverAssertions = [] ∧
    ∀ (st : SmtTranslator) (instr : ReilInstruction),
      (translate st instr).2.solverAssertions = st.solverAssertions := by
  refine ⟨rfl, rfl, ?_⟩
  intro st instr
  exact (translate_frame st instr).2

/-- Claim C8: the initial-memory handle is the version-0 array at
construction, is re-established by reset, is never changed by any
translate call, and a successful STM rebinds only the current-memory
handle to the fresh versioned array. -/
theorem c8_memory_init_immortal :
    (∀ a : Nat, (SmtTranslator.mk_init a).memInit = .arrvar a "MEM_0") ∧
    (∀ st : SmtTranslator, st.reset.memInit = .arrvar st.addressSize "MEM_0") ∧
    (∀ (st : SmtTranslator) (instr : ReilInstruction),
        (translate st instr).2.memInit = st.memInit) ∧
    (∀ (st : SmtTranslator) (o1 o2 o3 : ReilOperand) (rv : List SmtAssert),
        (translate_stm st o1 o2 o3).1 = .ok rv →
        (translate_stm st o1 o2 o3).2.mem =
            .arrvar st.addressSize ("MEM_" ++ toString (st.memInstance + 1)) ∧
        (translate_stm st o1 o2 o3).2.memInstance = st.memInstance + 1 ∧
        (translate_stm st o1 o2 o3).2.memInit = st.memInit) := by
  refine ⟨fun a => rfl, fun st => rfl,
    fun st instr => (translate_frame st instr).1, ?_⟩
  intro st o1 o2 o3 rv h1
  have hpair : translate_stm st o1 o2 o3 =
      (.ok rv, (translate_stm st o1 o2 o3).2) := by
    rw [← h1]
  have hm := translate_stm_ok_mem hpair
  exact ⟨hm.1, hm.2, (translate_stm_frame st o1 o2 o3).1⟩

/-- Claim C8 witness: a concrete one-byte STM. -/
theorem c8_memory_init_immortal_witness :
    (translate_stm (SmtTranslator.mk_init 32) (.reg "v" 8) .empty (.reg "p" 32)).2.mem =
        .arrvar (SmtTranslator.mk_init 32).addressSize
          ("MEM_" ++ toString ((SmtTranslator.mk_init 32).memInstance + 1)) ∧
    (translate_stm (SmtTranslator.mk_init 32) (.reg "v" 8) .empty (.reg "p" 32)).2.memInstance =
        (SmtTranslator.mk_init 32).memInstance + 1 ∧
    (translate_stm (SmtTranslator.mk_init 32) (.reg "v" 8) .empty (.reg "p" 32)).2.memInit =
        (SmtTranslator.mk_init 32).memInit :=
  c8_memory_init_immortal.2.2.2 (SmtTranslator.mk_init 32) (.reg "v" 8) .empty
    (.reg "p" 32) _ rfl

/-- Claim C9: translate raises the unsupported-instruction error
exactly for the UNKN mnemonic, and NOP, JCC, UNDEF and RET translate to
the empty assertion list with the state untouched. -/
theorem c9_unsupported_iff_unkn (st : SmtTranslator) (instr : ReilInstruction)
    (hlen : instr.operands.length = 3) :
    ((∃ st', translate st instr = (.error .unsupportedInstruction, st')) ↔
      instr.mnemonic = .UNKN) ∧
    ((instr.mnemonic = .NOP ∨ instr.mnemonic = .JCC ∨
      instr.mnemonic = .UNDEF ∨ instr.mnemonic = .RET) →
      translate st instr = (.ok [], st)) := by
  obtain ⟨mn, ops⟩ := instr
  rcases ops with _ | ⟨a, ops⟩
  · simp at hlen
  rcases ops with _ | ⟨b, ops⟩
  · simp at hlen
  rcases ops with _ | ⟨c, ops⟩
  · simp at hlen
  rcases ops with _ | ⟨d, ops⟩
  · cases mn <;>
      refine ⟨⟨fun hex => ?_, fun hmn => ?_⟩, fun hmn => ?_⟩ <;>
      first
      | (obtain ⟨st', h⟩ := hex
         exact translate_unsupported_mnemonic h)
      | exact ⟨st, rfl⟩
      | rfl
      | simp at hmn
  · simp at hlen

/-- Claim C9 witness at a concrete UNKN instruction. -/
theorem c9_unsupported_iff_unkn_witness :
    ((∃ st', translate (SmtTranslator.mk_init 32)
        ⟨.UNKN, [.empty, .empty, .empty]⟩ = (.error .unsupportedInstruction, st')) ↔
      (⟨.UNKN, [.empty, .empty, .empty]⟩ : ReilInstruction).mnemonic = .UNKN) ∧
    (((⟨.UNKN, [.empty, .empty, .empty]⟩ : ReilInstruction).mnemonic = .NOP ∨
      (⟨.UNKN, [.empty, .empty, .empty]⟩ : ReilInstruction).mnemonic = .JCC ∨
      (⟨.UNKN, [.empty, .empty, .empty]⟩ : ReilInstruction).mnemonic = .UNDEF ∨
      (⟨.UNKN, [.empty, .empty, .empty]⟩ : ReilInstruction).mnemonic = .RET) →
      translate (SmtTranslator.mk_init 32) ⟨.UNKN, [.empty, .empty, .empty]⟩ =
        (.ok [], SmtTranslator.mk_init 32)) :=
  c9_unsupported_iff_unkn (SmtTranslator.mk_init 32)
    ⟨.UNKN, [.empty, .empty, .empty]⟩ rfl

/-- Claim C1, counterexample: translating `ADD imm(1,8), imm(2,8) -> al`
with `al = (eax, 0xFF, 0)` and `size(eax) = 32` returns only the
defining equation; the byte-8 preservation constraint
`EXTRACT(eax_1, 8, 8) == EXTRACT(eax_0, 8, 8)` is not in the returned
list. -/
theorem c1_counterexample :
    (translate stAlias instrAddAl).1 =
      .ok [.cond (.eq (.extract (.var 32 "eax_1") 0 8)
        (.bvadd (.lit 8 1) (.lit 8 2)))] ∧
    SmtAssert.cond (.eq (.extract (.var 32 "eax_1") 8 8)
        (.extract (.var 32 "eax_0") 8 8)) ∉
      [SmtAssert.cond (.eq (.extract (.var 32 "eax_1") 0 8)
        (.bvadd (.lit 8 1) (.lit 8 2)))] := by
  refine ⟨rfl, ?_⟩
  intro hmem
  simp at hmem

/-- Claim C1 (amended): a successful translation of a 3-operand
arithmetic or bitwise instruction (ADD, SUB, MUL, DIV, MOD, BSH, AND,
OR, XOR) returns exactly one assertion, the defining equation; the
preservation constraints computed for an aliased destination are
discarded, not appended. -/
theorem c1_arith_returns_only_defining_equation (st : SmtTranslator)
    (mn : ReilMnemonic)
    (hmn : mn ∈ [ReilMnemonic.ADD, .SUB, .MUL, .DIV, .MOD, .BSH, .AND, .OR, .XOR])
    (o1 o2 o3 : ReilOperand) (rv : List SmtAssert) (st' : SmtTranslator)
    (h : translate st ⟨mn, [o1, o2, o3]⟩ = (.ok rv, st')) :
    rv.length = 1 := by
  fin_cases hmn
  · exact translate_add_ok_length h
  · exact translate_sub_ok_length h
  · exact translate_mul_ok_length h
  · exact translate_div_ok_length h
  · exact translate_mod_ok_length h
  · exact translate_bsh_ok_length h
  · exact translate_and_ok_length h
  · exact translate_or_ok_length h
  · exact translate_xor_ok_length h

/-- Claim C1 witness: the concrete aliased ADD returns a one-element
assertion list. -/
theorem c1_arith_returns_only_defining_equation_witness :
    ([SmtAssert.cond (.eq (.extract (.var 32 "eax_1") 0 8)
      (.bvadd (.lit 8 1) (.lit 8 2)))] : List SmtAssert).length = 1 :=
  c1_arith_returns_only_defining_equation stAlias .ADD (by simp)
    (reilImm 1 8) (reilImm 2 8) (.reg "al" 8)
    [SmtAssert.cond (.eq (.extract (.var 32 "eax_1") 0 8)
      (.bvadd (.lit 8 1) (.lit 8 2)))]
    (translate stAlias instrAddAl).2 rfl

/-- Claim C10, counterexample: `convert_to_bitvec` applied to the Empty
operand does not raise the invalid-operand-type error; Empty is a
Register subclass and is handled by the register branch, yielding a
variable named `EMPTY_0` of the null size. -/
theorem c10_counterexample :
    (convert_to_bitvec (SmtTranslator.mk_init 32) .empty).1 =
      .ok (.var 0 "EMPTY_0") ∧
    (convert_to_bitvec (SmtTranslator.mk_init 32) .empty).1 ≠
      .error .invalidOperandType := by
  constructor
  · rfl
  · intro h
    rw [show (convert_to_bitvec (SmtTranslator.mk_init 32) .empty).1 =
        .ok (.var 0 "EMPTY_0") from rfl] at h
    exact Except.noConfusion h

/-- Claim C10 (amended): `convert_to_bitvec` never consults the
register access map — an aliased register still becomes a variable of
its own size named by the current version of its own name, unlike the
internal source translation which produces an EXTRACT of the base
register; an immediate is translated exactly as in source translation;
and an Empty operand is handled by the register branch (it is a
register subclass) instead of raising the invalid-operand-type
error. -/
theorem c10_convert_ignores_alias_map (st : SmtTranslator) (name : String)
    (size : Nat) (base : String) (mask shift bs : Nat)
    (hmap : alist_get st.regAccessMapper name = some (base, mask, shift))
    (hsz : alist_get st.archRegsSize base = some bs) :
    (convert_to_bitvec st (.reg name size)).1 =
      .ok (.var size (current_name_of st name)) ∧
    (translate_src_oprnd st (.reg name size)).1 =
      .ok (.extract (.var bs (current_name_of st base)) shift size) ∧
    (∀ (v : Int) (s : Nat), convert_to_bitvec st (.imm v s) =
      (.ok (translate_immediate_oprnd (.imm v s)), st)) ∧
    (convert_to_bitvec st .empty).1 =
      .ok (.var 0 (current_name_of st "EMPTY")) := by
  refine ⟨?_, ?_, fun v s => rfl, ?_⟩
  · show Except.ok (SmtExpr.var size (get_curr_name st name).1) = _
    rw [get_curr_name_curr]
  · show (translate_src_register_oprnd st (.reg name size)).1 = _
    unfold translate_src_register_oprnd
    simp only [ReilOperand.name, ReilOperand.size]
    rw [hmap]
    simp only []
    have harch : alist_get (get_var_name st base false).2.archRegsSize base =
        some bs := by
      rw [(onc_get_var_name st base false).2.2.2.2.1]
      exact hsz
    rw [harch]
    simp only []
    rw [get_var_name_false_curr]
  · show Except.ok (SmtExpr.var ReilOperand.empty.size (get_curr_name st "EMPTY").1) = _
    rw [get_curr_name_curr]
    rfl

/-- Claim C10 witness: with `al = (eax, 0xFF, 0)` present in the map,
`convert_to_bitvec` still returns `al`'s own current variable while the
source translation extracts from `eax`. -/
theorem c10_convert_ignores_alias_map_witness :
    (convert_to_bitvec stAlias (.reg "al" 8)).1 =
      .ok (.var 8 (current_name_of stAlias "al")) ∧
    (translate_src_oprnd stAlias (.reg "al" 8)).1 =
      .ok (.extract (.var 32 (current_name_of stAlias "eax")) 0 8) ∧
    (∀ (v : Int) (s : Nat), convert_to_bitvec stAlias (.imm v s) =
      (.ok (translate_immediate_oprnd (.imm v s)), stAlias)) ∧
    (convert_to_bitvec stAlias .empty).1 =
      .ok (.var 0 (current_name_of stAlias "EMPTY")) :=
  c10_convert_ignores_alias_map stAlias "al" 8 "eax" 255 0 32 rfl rfl

/-- Claim C2: a successful STR with a strictly narrower source returns
both the defining equation `s1 == EXTRACT(d, 0, size(s1))` and the
zero-padding constraint `0 == EXTRACT(d, size(s1), size(d) - size(s1))`,
so every model of the returned assertions gives the fresh destination a
value below `2 ^ size(src)` (its high bits are zero). -/
theorem c2_str_zero_padding (st : SmtTranslator) (o1 o2 o3 : ReilOperand)
    (rv : List SmtAssert) (st' : SmtTranslator)
    (h : translate_str st o1 o2 o3 = (.ok rv, st'))
    (hlt : o1.size < o3.size) :
    ∃ s1 d, s1.size = o1.size ∧ d.size = o3.size ∧
      SmtAssert.cond (.eq s1 (.extract d 0 s1.size)) ∈ rv ∧
      SmtAssert.cond (.eq (.lit (d.size - s1.size) 0)
        (.extract d s1.size (d.size - s1.size))) ∈ rv ∧
      ∀ env menv, satisfies env menv rv → evalE env menv d < 2 ^ o1.size := by
  unfold translate_str at h
  split at h
  · simp at h
  split at h
  next => simp at h
  next op1Var st1 heq1 =>
    split at h
    next => simp at h
    next op3Var pc st2 heq2 =>
      have hs1 := translate_src_oprnd_size heq1
      have hs3 := translate_dst_oprnd_size heq2
      rw [if_neg (Nat.ne_of_lt hlt)] at h
      simp only [List.isEmpty_cons, Bool.false_eq_true, if_false] at h
      have hrv : ∃ t, rv =
          SmtAssert.cond (.eq op1Var (.extract op3Var 0 op1Var.size)) ::
          SmtAssert.cond (.eq (.lit (op3Var.size - op1Var.size) 0)
            (.extract op3Var op1Var.size (op3Var.size - op1Var.size))) :: t := by
        rcases pc with _ | cs <;> simp only [] at h
        · simp only [Prod.mk.injEq, Except.ok.injEq] at h
          exact ⟨[], h.1.symm⟩
        · by_cases hc : cs.isEmpty = true
          · rw [if_pos hc] at h
            simp only [Prod.mk.injEq, Except.ok.injEq] at h
            exact ⟨[], h.1.symm⟩
          · rw [if_neg hc] at h
            simp only [Prod.mk.injEq, Except.ok.injEq] at h
            exact ⟨cs, by rw [← h.1]; rfl⟩
      obtain ⟨t, rfl⟩ := hrv
      refine ⟨op1Var, op3Var, hs1, hs3, by simp, by simp, ?_⟩
      intro env menv hsat
      have hzero := hsat _ (by simp :
        SmtAssert.cond (.eq (.lit (op3Var.size - op1Var.size) 0)
          (.extract op3Var op1Var.size (op3Var.size - op1Var.size))) ∈
          SmtAssert.cond (.eq op1Var (.extract op3Var 0 op1Var.size)) ::
          SmtAssert.cond (.eq (.lit (op3Var.size - op1Var.size) 0)
            (.extract op3Var op1Var.size (op3Var.size - op1Var.size))) :: t)
      simp only [SmtAssert.holds, evalC, decide_eq_true_eq, evalE] at hzero
      have hlit : (Int.emod 0 ((2 : Int) ^ (op3Var.size - op1Var.size))).toNat %
          2 ^ (op3Var.size - op1Var.size) = 0 := by
        have h0 : Int.emod 0 ((2 : Int) ^ (op3Var.size - op1Var.size)) = 0 :=
          Int.zero_emod _
        rw [h0]
        rfl
      rw [hlit] at hzero
      have hx : evalE env menv op3Var < 2 ^ o3.size := by
        rw [← hs3]
        exact evalE_lt env menv op3Var
      rw [← hs1]
      refine high_bits_zero_lt ?_ hx ?_
      · rw [hs1]
        exact hlt
      · rw [hs1]
        rw [hs1, hs3] at hzero
        exact hzero.symm

/-- Claim C2 witness: `STR imm(0xBEEF, 16) -> t(32)` produces the
defining equation plus the zero-padding constraint. -/
theorem c2_str_zero_padding_witness :
    ∃ s1 d, s1.size = 16 ∧ d.size = 32 ∧
      SmtAssert.cond (.eq s1 (.extract d 0 s1.size)) ∈
        [SmtAssert.cond (.eq (.lit 16 48879) (.extract (.var 32 "t_1") 0 16)),
         SmtAssert.cond (.eq (.lit 16 0) (.extract (.var 32 "t_1") 16 16))] ∧
      SmtAssert.cond (.eq (.lit (d.size - s1.size) 0)
        (.extract d s1.size (d.size - s1.size))) ∈
        [SmtAssert.cond (.eq (.lit 16 48879) (.extract (.var 32 "t_1") 0 16)),
         SmtAssert.cond (.eq (.lit 16 0) (.extract (.var 32 "t_1") 16 16))] ∧
      ∀ env menv, satisfies env menv
        [SmtAssert.cond (.eq (.lit 16 48879) (.extract (.var 32 "t_1") 0 16)),
         SmtAssert.cond (.eq (.lit 16 0) (.extract (.var 32 "t_1") 16 16))] →
        evalE env menv d < 2 ^ 16 :=
  c2_str_zero_padding (SmtTranslator.mk_init 32) (reilImm 48879 16) .empty
    (.reg "t" 32)
    [SmtAssert.cond (.eq (.lit 16 48879) (.extract (.var 32 "t_1") 0 16)),
     SmtAssert.cond (.eq (.lit 16 0) (.extract (.var 32 "t_1") 16 16))]
    (translate_str (SmtTranslator.mk_init 32) (reilImm 48879 16) .empty
      (.reg "t" 32)).2 rfl (by decide)

/-- Model used for the BSH counterexample: `x_0 = 3`, everything else
zero. -/
def env_x3 : String → Nat := fun s => if s = "x_0" then 3 else 0

/-- All-zero memory model. -/
def menv0 : String → Nat → Nat := fun _ _ => 0

/-- Instruction `BSH x(8), imm(-1, 8) -> y(8)`. -/
def bshInstr : ReilInstruction := ⟨.BSH, [.reg "x" 8, reilImm (-1) 8, .reg "y" 8]⟩

/-- The single assertion returned for `bshInstr`. -/
def bshAssertC4 : SmtAssert :=
  .cond (.eq (.var 8 "y_1")
    (.itebv 8 (.uge (.lit 8 255) (.lit 8 0))
      (.extract (.bvshl (.var 8 "x_0") (.lit 8 255)) 0 8)
      (.extract (.bvlshr (.var 8 "x_0") (.bvneg (.lit 8 255))) 0 8)))

/-- Claim C4, counterexample: the `s2 >= 0` test of BSH is the unsigned
comparison, so with `imm(-1, 8) = 0xFF` the instruction left-shifts:
the model `x_0 = 3`, `y_1 = 0` satisfies the returned constraint, hence
the constraints together with `x_0 == 3` do not entail that the fresh
destination equals 1. -/
theorem c4_counterexample :
    (translate (SmtTranslator.mk_init 32) bshInstr).1 = .ok [bshAssertC4] ∧
    satisfies env_x3 menv0 [bshAssertC4] ∧
    env_x3 "x_0" = 3 ∧ env_x3 "y_1" = 0 ∧
    ¬ (∀ env menv, satisfies env menv [bshAssertC4] →
        env "x_0" % 2 ^ 8 = 3 → env "y_1" % 2 ^ 8 = 1) := by
  have hsat : satisfies env_x3 menv0 [bshAssertC4] := by
    intro a ha
    rw [List.mem_singleton] at ha
    subst ha
    show evalC env_x3 menv0 _ = true
    decide
  refine ⟨rfl, hsat, rfl, rfl, fun hall => ?_⟩
  exact absurd (hall env_x3 menv0 hsat (by decide)) (by decide)

/-- Claim C4 (amended): BSH returns exactly one assertion of the ITE
shape, but `s2 >= 0` is the backend-default unsigned comparison against
zero, which holds in every model; consequently every model of the
returned assertion gives the destination the truncated left-shift
value. -/
theorem c4_bsh_unsigned_always_left (st : SmtTranslator)
    (o1 o2 o3 : ReilOperand) (rv : List SmtAssert) (st' : SmtTranslator)
    (h : translate_bsh st o1 o2 o3 = (.ok rv, st')) :
    ∃ s1 s2 d, rv = [.cond (.eq d (.itebv o3.size (.uge s2 (.lit s2.size 0))
        (.extract (.bvshl s1 s2) 0 d.size)
        (.extract (.bvlshr s1 (.bvneg s2)) 0 d.size)))] ∧
      d.size = o3.size ∧
      (∀ env menv, evalC env menv (.uge s2 (.lit s2.size 0)) = true) ∧
      (∀ env menv, satisfies env menv rv →
        evalE env menv d = evalE env menv (.extract (.bvshl s1 s2) 0 d.size)) := by
  unfold translate_bsh at h
  split at h
  · simp at h
  split at h
  · simp at h
  split at h
  next => simp at h
  next op1Var st1 heq1 =>
    split at h
    next => simp at h
    next op2Var st2 heq2 =>
      split at h
      next => simp at h
      next op3Var pc st3 heq3 =>
        simp only [Prod.mk.injEq, Except.ok.injEq] at h
        obtain ⟨hrv, -⟩ := h
        subst hrv
        have hsize := translate_dst_oprnd_size heq3
        have hc : ∀ env menv,
            evalC env menv (.uge op2Var (.lit op2Var.size 0)) = true := by
          intro env menv
          have h0 : Int.emod 0 ((2 : Int) ^ op2Var.size) = 0 := Int.zero_emod _
          simp [evalC, evalE, h0]
        refine ⟨op1Var, op2Var, op3Var, rfl, hsize, hc, ?_⟩
        intro env menv hsat
        have hd := hsat _ (List.mem_singleton.mpr rfl)
        simp only [SmtAssert.holds, evalC, decide_eq_true_eq] at hd
        rw [hd]
        show (if evalC env menv _ then _ else _) % 2 ^ o3.size = _
        rw [hc env menv]
        simp only [if_true]
        apply Nat.mod_eq_of_lt
        rw [← hsize]
        have hb := evalE_lt env menv
          (.extract (.bvshl op1Var op2Var) 0 op3Var.size)
        simpa [SmtExpr.size] using hb

/-- Claim C4 witness: the concrete `BSH x(8), imm(-1,8) -> y(8)`. -/
theorem c4_bsh_unsigned_always_left_witness :
    ∃ s1 s2 d, [bshAssertC4] =
        [.cond (.eq d (.itebv 8 (.uge s2 (.lit s2.size 0))
          (.extract (.bvshl s1 s2) 0 d.size)
          (.extract (.bvlshr s1 (.bvneg s2)) 0 d.size)))] ∧
      d.size = 8 ∧
      (∀ env menv, evalC env menv (.uge s2 (.lit s2.size 0)) = true) ∧
      (∀ env menv, satisfies env menv [bshAssertC4] →
        evalE env menv d = evalE env menv (.extract (.bvshl s1 s2) 0 d.size)) :=
  c4_bsh_unsigned_always_left (SmtTranslator.mk_init 32) (.reg "x" 8)
    (reilImm (-1) 8) (.reg "y" 8) [bshAssertC4]
    (translate_bsh (SmtTranslator.mk_init 32) (.reg "x" 8) (reilImm (-1) 8)
      (.reg "y" 8)).2 rfl

/-- A list with a member is not empty. -/
theorem ne_nil_isEmpty_false {α : Type} {l : List α} {a : α} (h : a ∈ l) :
    ¬ (l.isEmpty = true) := by
  cases l
  · cases h
  · simp

/-- Claim C3: after a successful `STR src -> alias` where the access
map sends the alias to `(base, mask, shift)` with `size(base) =
varSize`, every model of the returned assertions makes each byte-offset
`i` of the fresh base version outside `[shift, shift + size(alias))`
equal to the corresponding byte of the previous base version. -/
theorem c3_str_alias_preserves_outer_bytes (st : SmtTranslator)
    (o1 o2 : ReilOperand) (aliasName : String) (aliasSize : Nat)
    (base : String) (mask shift varSize : Nat)
    (rv : List SmtAssert) (st' : SmtTranslator)
    (hmap : alist_get st.regAccessMapper aliasName = some (base, mask, shift))
    (hsz : alist_get st.archRegsSize base = some varSize)
    (h : translate_str st o1 o2 (.reg aliasName aliasSize) = (.ok rv, st'))
    (i : Nat) (hi8 : i % 8 = 0) (hiv : i < varSize)
    (hout : ¬ (shift ≤ i ∧ i < shift + aliasSize)) :
    ∀ env menv, satisfies env menv rv →
      evalE env menv (.extract (.var varSize (current_name_of st' base)) i 8) =
      evalE env menv (.extract (.var varSize (current_name_of st base)) i 8) := by
  unfold translate_str at h
  split at h
  · simp at h
  split at h
  next => simp at h
  next op1Var st1 heq1 =>
    have h1 : only_names_changed st st1 := by
      have hh := onc_translate_src_oprnd st o1
      rw [heq1] at hh
      exact hh
    have hmap1 : alist_get st1.regAccessMapper aliasName =
        some (base, mask, shift) := by
      rw [h1.2.2.2.2.2.1]
      exact hmap
    have harch : alist_get
        (get_var_name (get_var_name st1 base false).2 base true).2.archRegsSize
        base = some varSize := by
      rw [(onc_get_var_name (get_var_name st1 base false).2 base true).2.2.2.2.1,
          (onc_get_var_name st1 base false).2.2.2.2.1, h1.2.2.2.2.1]
      exact hsz
    have hdst : translate_dst_oprnd st1 (.reg aliasName aliasSize) =
        (.ok (.extract
            (.var varSize (get_var_name (get_var_name st1 base false).2 base true).1)
            shift aliasSize,
          some (parent_reg_constrs_list
            (.var varSize (get_var_name (get_var_name st1 base false).2 base true).1)
            (.var varSize (get_var_name st1 base false).1)
            varSize shift aliasSize)),
        (get_var_name (get_var_name st1 base false).2 base true).2) := by
      show translate_dst_register_oprnd st1 (.reg aliasName aliasSize) = _
      unfold translate_dst_register_oprnd
      simp only [ReilOperand.name, ReilOperand.size]
      rw [hmap1]
      simp only []
      rw [harch]
    rw [hdst] at h
    simp only [] at h
    have hmem0 := @mem_parent_reg_constrs_list
      (.var varSize (get_var_name (get_var_name st1 base false).2 base true).1)
      (.var varSize (get_var_name st1 base false).1)
      varSize shift aliasSize i hi8 hiv hout
    rw [if_neg (ne_nil_isEmpty_false hmem0)] at h
    simp only [Prod.mk.injEq, Except.ok.injEq] at h
    obtain ⟨hrv, hst⟩ := h
    intro env menv hsat
    have hmem : SmtAssert.cond (.eq
        (.extract (.var varSize
          (get_var_name (get_var_name st1 base false).2 base true).1) i 8)
        (.extract (.var varSize (get_var_name st1 base false).1) i 8)) ∈ rv := by
      rw [← hrv]
      exact List.mem_append_right _ hmem0
    have hbyte := hsat _ hmem
    simp only [SmtAssert.holds, evalC, decide_eq_true_eq] at hbyte
    have hnew : current_name_of st' base =
        (get_var_name (get_var_name st1 base false).2 base true).1 := by
      rw [← hst]
      exact get_var_name_true_curr (get_var_name st1 base false).2 base
    have hold : current_name_of st base = (get_var_name st1 base false).1 := by
      have e1 := get_var_name_false_curr st1 base
      have e2 : current_name_of st1 base = current_name_of st base := by
        have hh := current_name_of_translate_src_oprnd st o1 base
        rw [heq1] at hh
        exact hh
      rw [e1, e2]
    rw [hnew, hold]
    exact hbyte

/-- Model for the C3 witness: `eax_1 = 5`, everything else zero. -/
def envEax5 : String → Nat := fun s => if s = "eax_1" then 5 else 0

/-- Claim C3 witness: `STR imm(5, 8) -> al` over `stAlias`, byte
offset 8 (outside the alias range `[0, 8)`), evaluated in the model
`envEax5` which satisfies the returned assertions. -/
theorem c3_str_alias_preserves_outer_bytes_witness :
    evalE envEax5 menv0 (.extract (.var 32 (current_name_of
      (translate_str stAlias (reilImm 5 8) .empty (.reg "al" 8)).2 "eax")) 8 8) =
    evalE envEax5 menv0 (.extract (.var 32 (current_name_of stAlias "eax")) 8 8) :=
  c3_str_alias_preserves_outer_bytes stAlias (reilImm 5 8) .empty "al" 8 "eax"
    255 0 32
    [SmtAssert.cond (.eq (.lit 8 5) (.extract (.var 32 "eax_1") 0 8)),
     SmtAssert.cond (.eq (.extract (.var 32 "eax_1") 24 8)
       (.extract (.var 32 "eax_0") 24 8)),
     SmtAssert.cond (.eq (.extract (.var 32 "eax_1") 16 8)
       (.extract (.var 32 "eax_0") 16 8)),
     SmtAssert.cond (.eq (.extract (.var 32 "eax_1") 8 8)
       (.extract (.var 32 "eax_0") 8 8))]
    (translate_str stAlias (reilImm 5 8) .empty (.reg "al" 8)).2
    rfl rfl rfl 8 (by decide) (by decide) (by decide) envEax5 menv0
    (by
      intro a ha
      simp only [List.mem_cons, List.not_mem_nil, or_false] at ha
      rcases ha with rfl | rfl | rfl | rfl <;>
        · show evalC envEax5 menv0 _ = true
          decide)

end Barf
